import Mathlib

/-!
Verification of the SqlCatalog cluster engine.

This file gives a shallow embedding of the cluster data model and its
operations (the `ClusterState` mutation engine in `cluster/backend.py` and
the clustering algorithms in `cluster/clustering.py`) and proves properties
of the embedded definitions.

Modelling conventions:
* Python `dict`s keyed by id are modelled as lists of records, keyed by the
  id field; dict iteration order is list order (Python dicts preserve
  insertion order).
* Python `set`s are modelled as lists used with set semantics: `add` is
  `List.insert` (prepend if absent), `discard` removes every copy.  Where a
  Python `set` is iterated, the model iterates in first-occurrence order
  (CPython's hash order is unspecified, so no list-order-dependent claim is
  stated about such iterations).
* Python floats are modelled as rationals (`ℚ`); every similarity in the
  source is a quotient of small integers.
* Wall-clock timestamps (`deleted_at`, `last_updated`) carry no information
  used by any operation, and are omitted from the state.
* `raise` is modelled by `Except`; the error value carries the state at the
  moment of the raise, so that atomicity is a real statement about the
  model rather than a triviality of purity.
-/

namespace SqlCatalog

/-! ### Decimal representation: `Nat.repr` is injective.

The fresh-identifier loops in `move_procedure`, `delete_procedure` and
`restore_procedure` try suffixes `2, 3, 4, …` until the candidate name is
unused.  To model the loop as a total function returning the first free
candidate we need that distinct suffixes give distinct strings, i.e. that
the decimal representation of a natural number is injective. -/

/-- Numeric value of a decimal digit character (inverse of `Nat.digitChar`
on digits `0`–`9`). -/
def digitVal (c : Char) : Nat := c.toNat - 48

theorem digitVal_digitChar {d : Nat} (h : d < 10) :
    digitVal (Nat.digitChar d) = d := by
  interval_cases d <;> rfl

/-- Value of a most-significant-first list of decimal digit characters. -/
def digitsVal (l : List Char) : Nat :=
  l.foldl (fun a c => 10 * a + digitVal c) 0

theorem digitsVal_append_singleton (l : List Char) (c : Char) :
    digitsVal (l ++ [c]) = 10 * digitsVal l + digitVal c := by
  simp [digitsVal, List.foldl_append]

theorem toDigitsCore_append (f : Nat) :
    ∀ (n : Nat) (ds : List Char),
      Nat.toDigitsCore 10 f n ds = Nat.toDigitsCore 10 f n [] ++ ds := by
  induction f with
  | zero => intro n ds; simp [Nat.toDigitsCore]
  | succ f ih =>
    intro n ds
    simp only [Nat.toDigitsCore]
    by_cases h : n / 10 = 0
    · simp [h]
    · simp only [h, if_false]
      rw [ih (n / 10) (Nat.digitChar (n % 10) :: ds),
        ih (n / 10) (Nat.digitChar (n % 10) :: [])]
      simp

theorem toDigitsCore_fuel :
    ∀ (n f : Nat), n < f →
      Nat.toDigitsCore 10 f n [] = Nat.toDigitsCore 10 (n + 1) n [] := by
  intro n
  induction n using Nat.strong_induction_on with
  | _ n ih =>
    intro f hf
    match f, hf with
    | f + 1, hf =>
      simp only [Nat.toDigitsCore]
      by_cases h : n / 10 = 0
      · simp [h]
      · simp only [h, if_false]
        have hn10 : n ≥ 10 := by
          by_contra hlt
          exact h (Nat.div_eq_of_lt (by omega))
        have hdiv_lt : n / 10 < n := Nat.div_lt_self (by omega) (by omega)
        rw [toDigitsCore_append f, toDigitsCore_append n]
        rw [ih (n / 10) hdiv_lt f (by omega), ih (n / 10) hdiv_lt n (by omega)]

theorem digitsVal_toDigits :
    ∀ n : Nat, digitsVal (Nat.toDigits 10 n) = n := by
  intro n
  induction n using Nat.strong_induction_on with
  | _ n ih =>
    unfold Nat.toDigits
    simp only [Nat.toDigitsCore]
    by_cases h : n / 10 = 0
    · have hn : n < 10 := by
        by_contra hge
        have : n / 10 ≥ 1 := Nat.le_div_iff_mul_le (by omega) |>.mpr (by omega)
        omega
      have : n % 10 = n := Nat.mod_eq_of_lt hn
      simp [h, this, digitsVal, digitVal_digitChar hn]
    · simp only [h, if_false]
      have hn10 : n ≥ 10 := by
        by_contra hlt
        exact h (Nat.div_eq_of_lt (by omega))
      have hdiv_lt : n / 10 < n := Nat.div_lt_self (by omega) (by omega)
      rw [toDigitsCore_append n (n / 10), toDigitsCore_fuel (n / 10) n (by omega)]
      rw [digitsVal_append_singleton]
      have hmod : n % 10 < 10 := Nat.mod_lt _ (by omega)
      rw [digitVal_digitChar hmod]
      have := ih (n / 10) hdiv_lt
      unfold Nat.toDigits at this
      rw [this]
      omega

theorem natRepr_injective : Function.Injective Nat.repr := by
  intro m n h
  have hdat : Nat.toDigits 10 m = Nat.toDigits 10 n := by
    have hd := congrArg String.data h
    simpa [Nat.repr, List.asString] using hd
  calc m = digitsVal (Nat.toDigits 10 m) := (digitsVal_toDigits m).symm
    _ = digitsVal (Nat.toDigits 10 n) := by rw [hdat]
    _ = n := digitsVal_toDigits n

/-! ### Fresh-name generation.

`move_procedure` tries `name`, then `name__2`, `name__3`, …;
`delete_procedure` tries `trash_name`, then `trash_name_2`, …;
`restore_procedure` tries `name`, then `name_2`, ….
Each loop returns the first candidate that is not an existing key. -/

/-- Candidate produced by a suffix loop: `pre ++ mid ++ <decimal k>`. -/
def suffixCand (pre mid : String) (k : Nat) : String :=
  pre ++ mid ++ Nat.repr k

theorem suffixCand_injective (pre mid : String) :
    Function.Injective (fun k => suffixCand pre mid (k + 2)) := by
  intro a b h
  simp only [suffixCand] at h
  have hd := congrArg String.data h
  simp only [String.data_append] at hd
  have h2 := List.append_cancel_left hd
  have hrepr : Nat.repr (a + 2) = Nat.repr (b + 2) := by
    apply String.ext
    exact h2
  have := natRepr_injective hrepr
  omega

theorem fresh_exists (f : Nat → String) (hf : Function.Injective f)
    (taken : List String) : ∃ k, f k ∉ taken := by
  by_contra hall
  push_neg at hall
  have hnd : ((List.range (taken.length + 1)).map f).Nodup :=
    (List.nodup_range _).map hf
  have hsub : ((List.range (taken.length + 1)).map f) ⊆ taken := by
    intro s hs
    rcases List.mem_map.1 hs with ⟨k, _, rfl⟩
    exact hall k
  have hle := (hnd.subperm hsub).length_le
  simp at hle

/-- First free name in the Python suffix loop: the bare candidate `first`
if it is unused, otherwise `pre ++ mid ++ <k>` for the least suffix
`k ≥ 2` that is unused. -/
def freshWith (pre mid first : String) (taken : List String) : String :=
  if first ∈ taken then
    suffixCand pre mid
      (Nat.find (fresh_exists (fun k => suffixCand pre mid (k + 2))
        (suffixCand_injective pre mid) taken) + 2)
  else first

theorem freshWith_not_mem (pre mid first : String) (taken : List String) :
    freshWith pre mid first taken ∉ taken := by
  unfold freshWith
  by_cases h : first ∈ taken
  · simp only [h, if_true]
    exact Nat.find_spec (fresh_exists (fun k => suffixCand pre mid (k + 2))
      (suffixCand_injective pre mid) taken)
  · rw [if_neg h]
    exact h

/-! ### List and string utilities matching Python semantics. -/

/-- Deduplicate keeping the FIRST occurrence of each element, in order —
the key order of a Python dict / Counter / first-insertion set model.
(Mathlib's `List.dedup` keeps last occurrences, which would not match.) -/
def dedupF {α : Type} [DecidableEq α] : List α → List α
  | [] => []
  | x :: xs => x :: (dedupF xs).filter (fun y => y ≠ x)

theorem mem_dedupF {α : Type} [DecidableEq α] {y : α} :
    ∀ {l : List α}, y ∈ dedupF l ↔ y ∈ l := by
  intro l
  induction l with
  | nil => simp [dedupF]
  | cons x xs ih =>
    by_cases hyx : y = x
    · simp [dedupF, hyx]
    · simp [dedupF, hyx, List.mem_filter, ih]

theorem nodup_dedupF {α : Type} [DecidableEq α] : ∀ (l : List α), (dedupF l).Nodup := by
  intro l
  induction l with
  | nil => simp [dedupF]
  | cons x xs ih =>
    refine List.nodup_cons.2 ⟨?_, ih.filter _⟩
    intro hx
    have := (List.mem_filter.1 hx).2
    simp at this

/-- Insert `x` after every already-placed element `y` with `le y x`:
folding this from the left is a stable insertion sort. -/
def insertStable {α : Type} (le : α → α → Bool) (x : α) : List α → List α
  | [] => [x]
  | y :: ys => if le y x then y :: insertStable le x ys else x :: y :: ys

/-- Stable sort by a total preorder `le` — the semantics of Python's
`sorted` / `list.sort` (stable sorts by a total preorder are unique, so
the implementation choice is immaterial).  Structurally recursive so that
concrete states evaluate inside the kernel. -/
def stableSort {α : Type} (le : α → α → Bool) (l : List α) : List α :=
  l.foldl (fun acc x => insertStable le x acc) []

/-- Python's `str.lower()`, character by character. -/
def strLower (s : String) : String := ⟨s.data.map Char.toLower⟩

/-! ### Data model (`cluster/backend.py`). -/

/-- `ProcedureGroup` dataclass. -/
structure ProcedureGroup where
  group_id : String
  cluster_id : String
  procedures : List String
  tables : List String
  is_singleton : Bool
  display_name : Option String := none
deriving DecidableEq

/-- `ClusterInfo` dataclass.  `procedures`, `tables` and `procedure_count`
are derived data, recomputed by `rebuild_indexes`. -/
structure ClusterInfo where
  cluster_id : String
  group_ids : List String
  display_name : Option String := none
  procedures : List String := []
  tables : List String := []
  procedure_count : Nat := 0
deriving DecidableEq

/-- `SimilarityEdge` dataclass (similarity is a float in the source,
modelled as a rational). -/
structure SimilarityEdge where
  source : String
  target : String
  similarity : ℚ
deriving DecidableEq

/-- `ProcedureTableEdge` dataclass. -/
structure ProcedureTableEdge where
  group_id : String
  table : String
  is_global_table : Bool
deriving DecidableEq

/-- Data payload of a trashed procedure (`trash_metadata` built in
`delete_procedure`). -/
structure ProcTrashData where
  procedure_name : String
  original_group_id : String
  original_cluster_id : String
  tables : List String
deriving DecidableEq

/-- Data payload of a trashed table (built in `delete_table`). -/
structure TableTrashData where
  table_name : String
  was_global : Bool
  was_orphaned : Bool
  referencing_groups : List String
deriving DecidableEq

/-- Payload of a `TrashItem`; the `item_type` string of the source
("procedure" / "table") is the constructor.  The `deleted_at` wall-clock
timestamp is omitted (no operation reads it). -/
inductive TrashData
  | procedureData (d : ProcTrashData)
  | tableData (d : TableTrashData)
deriving DecidableEq

/-- `TrashItem` dataclass. -/
structure TrashItem where
  data : TrashData
deriving DecidableEq

/-- The clustering parameters read by `ClusterState`
(`self.parameters.get(...)`).  A missing key and a present falsy value
behave identically in the source (`get(k, d) or d`), so defaults are
represented by the falsy value `0`. -/
structure Params where
  similarity_threshold : ℚ := 0
  min_group_size : Nat := 0
  min_global_clusters : Nat := 0
deriving DecidableEq

/-- Effective `min_global_clusters`: `int(get("min_global_clusters", 2) or 2)`. -/
def effMinGlobalClusters (p : Params) : Nat :=
  if p.min_global_clusters = 0 then 2 else p.min_global_clusters

/-- Effective `min_group_size`: `int(get("min_group_size", 1) or 1)`. -/
def effMinGroupSize (p : Params) : Nat :=
  if p.min_group_size = 0 then 1 else p.min_group_size

/-- Effective `similarity_threshold`: `float(get("similarity_threshold", 0.5) or 0.5)`. -/
def effSimilarityThreshold (p : Params) : ℚ :=
  if p.similarity_threshold = 0 then 1/2 else p.similarity_threshold

/-- Table-flag entry of `table_nodes`. -/
structure TableNode where
  table : String
  usage_count : Nat
  is_global : Bool
  is_missing : Bool
  is_orphaned : Bool
deriving DecidableEq

/-- The `ClusterState` aggregate.  `clusters` and `groups` model the
`dict`s keyed by `cluster_id` / `group_id` (list order = insertion
order); the three table sets are lists with set semantics;
`last_updated` and `catalog_path` are omitted (no claim concerns them). -/
@[ext]
structure ClusterState where
  clusters : List ClusterInfo
  groups : List ProcedureGroup
  cluster_order : List String
  group_order : List String
  global_tables : List String
  missing_tables : List String
  orphaned_tables : List String
  similarity_edges : List SimilarityEdge
  parameters : Params
  table_usage : List (String × Nat) := []
  table_nodes : List TableNode := []
  procedure_table_edges : List ProcedureTableEdge := []
  trash : List TrashItem := []
deriving DecidableEq

/-! ### Lookup helpers. -/

/-- Dict lookup `self.groups.get(gid)`: first entry with the given key. -/
def findGroup? (gs : List ProcedureGroup) (gid : String) : Option ProcedureGroup :=
  gs.find? (fun g => g.group_id = gid)

/-- Dict lookup `self.clusters.get(cid)`. -/
def findCluster? (cs : List ClusterInfo) (cid : String) : Option ClusterInfo :=
  cs.find? (fun c => c.cluster_id = cid)

/-- Keys of the `clusters` dict. -/
def clusterIds (s : ClusterState) : List String := s.clusters.map (·.cluster_id)

/-- Keys of the `groups` dict. -/
def groupIds (gs : List ProcedureGroup) : List String := gs.map (·.group_id)

/-- Dict update of the entry at a key (Python mutates the looked-up object
in place).  With unique keys this touches exactly the dict entry. -/
def updateClusterById (cs : List ClusterInfo) (cid : String)
    (f : ClusterInfo → ClusterInfo) : List ClusterInfo :=
  cs.map (fun c => if c.cluster_id = cid then f c else c)

/-- Dict update of the group at a key. -/
def updateGroupById (gs : List ProcedureGroup) (gid : String)
    (f : ProcedureGroup → ProcedureGroup) : List ProcedureGroup :=
  gs.map (fun g => if g.group_id = gid then f g else g)

/-- Dict insertion `self.groups[g.group_id] = g`: replaces the entry if the
key exists, otherwise appends (insertion order). -/
def insertGroup (gs : List ProcedureGroup) (g : ProcedureGroup) : List ProcedureGroup :=
  if g.group_id ∈ groupIds gs then updateGroupById gs g.group_id (fun _ => g)
  else gs ++ [g]

/-! ### `rebuild_indexes` (backend.py lines 913–991). -/

/-- Membership-prune predicate: `gid in self.groups and
self.groups[gid].cluster_id == cluster.cluster_id`. -/
def claimsCluster (gs : List ProcedureGroup) (cid gid : String) : Bool :=
  match findGroup? gs gid with
  | some g => g.cluster_id = cid
  | none => false

/-- First rebuild step applied to one cluster: prune `group_ids` to groups
that still claim this cluster. -/
def pruneFun (gs : List ProcedureGroup) (c : ClusterInfo) : ClusterInfo :=
  { c with group_ids := c.group_ids.filter (fun gid => claimsCluster gs c.cluster_id gid) }

/-- Second rebuild step, one group: add the group to its cluster's list if
the cluster exists and the group is missing from it. -/
def attachFun (g : ProcedureGroup) (c : ClusterInfo) : ClusterInfo :=
  if c.cluster_id = g.cluster_id then
    (if g.group_id ∈ c.group_ids then c
     else { c with group_ids := c.group_ids ++ [g.group_id] })
  else c

/-- Second rebuild step, one group, applied to the whole cluster list: the
source looks the cluster up by `group.cluster_id` and mutates it in place,
which is the same as mapping `attachFun g` over the list (only the
matching cluster changes). -/
def attachStep (cs : List ClusterInfo) (g : ProcedureGroup) : List ClusterInfo :=
  cs.map (attachFun g)

/-- Second rebuild step folded over all groups (Python iterates
`self.groups.items()`). -/
def attachGroups (gs : List ProcedureGroup) (cs : List ClusterInfo) : List ClusterInfo :=
  gs.foldl attachStep cs

/-- The effect of `attachGroups` on a single cluster. -/
def attachAll (gs : List ProcedureGroup) (c : ClusterInfo) : ClusterInfo :=
  gs.foldl (fun c g => attachFun g c) c

/-- Python's `sorted(some_set)`: distinct elements in ascending order. -/
def sortedDedup (l : List String) : List String :=
  stableSort (fun a b => a ≤ b) (dedupF l)

/-- Third rebuild step: recompute one cluster's derived
procedures/tables/count as sorted unions over its member groups.  The
lookup default is unreachable: pruning guarantees every listed group
exists. -/
def summarizeCluster (gs : List ProcedureGroup) (c : ClusterInfo) : ClusterInfo :=
  let procs := sortedDedup (c.group_ids.flatMap
    (fun gid => ((findGroup? gs gid).map (·.procedures)).getD []))
  let tabs := sortedDedup (c.group_ids.flatMap
    (fun gid => ((findGroup? gs gid).map (·.tables)).getD []))
  { c with procedures := procs, tables := tabs, procedure_count := procs.length }

/-- Distinct referenced tables, in first-reference order (the key order of
the `table_usage` Counter). -/
def allReferencedTables (gs : List ProcedureGroup) : List String :=
  dedupF (gs.flatMap (·.tables))

/-- `table_usage[t]`: number of group-table references to `t`. -/
def tableUsageCount (gs : List ProcedureGroup) (t : String) : Nat :=
  (gs.flatMap (·.tables)).count t

/-- The rebuilt `table_usage` Counter as an association list. -/
def computeTableUsage (gs : List ProcedureGroup) : List (String × Nat) :=
  (allReferencedTables gs).map (fun t => (t, tableUsageCount gs t))

/-- Number of distinct `cluster_id`s among groups referencing `t`
(`len(table_cluster_map[t])`; the map uses `group.cluster_id`, whether or
not that cluster exists). -/
def clusterSpan (gs : List ProcedureGroup) (t : String) : Nat :=
  (dedupF ((gs.filter (fun g => t ∈ g.tables)).map (·.cluster_id))).length

/-- The rebuilt `global_tables` set: tables spanning at least
`min_global_clusters` distinct clusters. -/
def computeGlobalTables (gs : List ProcedureGroup) (m : Nat) : List String :=
  (allReferencedTables gs).filter (fun t => m ≤ clusterSpan gs t)

/-- The rebuilt `table_nodes` list: used tables (sorted) with their flags,
then orphaned tables (sorted) as unused entries. -/
def computeTableNodes (gs : List ProcedureGroup)
    (gt missing orphaned : List String) : List TableNode :=
  (stableSort (fun a b => a ≤ b) (allReferencedTables gs)).map (fun t =>
    { table := t, usage_count := tableUsageCount gs t,
      is_global := t ∈ gt, is_missing := t ∈ missing, is_orphaned := false })
  ++ (stableSort (fun a b => a ≤ b) orphaned).map (fun t =>
    { table := t, usage_count := 0,
      is_global := false, is_missing := false, is_orphaned := true })

/-- The rebuilt flattened group-to-table edge list. -/
def computeProcTableEdges (gs : List ProcedureGroup) (gt : List String) :
    List ProcedureTableEdge :=
  gs.flatMap (fun g => g.tables.map (fun t =>
    { group_id := g.group_id, table := t, is_global_table := decide (t ∈ gt) }))

/-- All ordered pairs `(l[i], l[j])` with `i < j`
(`for i, a in enumerate(l): for b in l[i+1:]`). -/
def pairsOf {α : Type} : List α → List (α × α)
  | [] => []
  | x :: xs => (xs.map (fun y => (x, y))) ++ pairsOf xs

/-- Core tables of a group: its table set minus the current global tables
(`core_tables_map` in `_recompute_similarity_edges`; a Python set, so
counted without duplicates). -/
def coreTables (gt : List String) (g : ProcedureGroup) : List String :=
  dedupF (g.tables.filter (fun t => t ∉ gt))

/-- `_recompute_similarity_edges`: pairwise Jaccard similarity over core
tables of groups sorted by id, gated by effective `min_group_size` and
`similarity_threshold`. -/
def recomputeSimilarityEdges (gs : List ProcedureGroup) (gt : List String)
    (p : Params) : List SimilarityEdge :=
  let mgs := effMinGroupSize p
  let θ := effSimilarityThreshold p
  let sortedGroups := stableSort (fun a b => a.group_id ≤ b.group_id) gs
  (pairsOf sortedGroups).filterMap (fun ab =>
    let ca := coreTables gt ab.1
    let cb := coreTables gt ab.2
    if ca.length < mgs ∨ cb.length < mgs then none
    else
      let inter := ca.filter (fun t => t ∈ cb)
      if inter = [] then none
      else
        let uni := ca ++ cb.filter (fun t => t ∉ ca)
        let sim : ℚ := (inter.length : ℚ) / (uni.length : ℚ)
        if θ ≤ sim then
          some { source := ab.1.group_id, target := ab.2.group_id, similarity := sim }
        else none)

/-- `rebuild_indexes`: refresh all computed metadata. -/
def rebuildIndexes (s : ClusterState) : ClusterState :=
  let cs1 := attachGroups s.groups (s.clusters.map (pruneFun s.groups))
  let cs2 := cs1.map (summarizeCluster s.groups)
  let gt := computeGlobalTables s.groups (effMinGlobalClusters s.parameters)
  { s with
    clusters := cs2,
    table_usage := computeTableUsage s.groups,
    global_tables := gt,
    table_nodes := computeTableNodes s.groups gt s.missing_tables s.orphaned_tables,
    procedure_table_edges := computeProcTableEdges s.groups gt,
    similarity_edges := recomputeSimilarityEdges s.groups gt s.parameters }

/-! ### Rebuild lemmas. -/

theorem attachFun_cluster_id (g : ProcedureGroup) (c : ClusterInfo) :
    (attachFun g c).cluster_id = c.cluster_id := by
  unfold attachFun; split_ifs <;> rfl

theorem attachAll_cons (g : ProcedureGroup) (gs : List ProcedureGroup) (c : ClusterInfo) :
    attachAll (g :: gs) c = attachAll gs (attachFun g c) := rfl

theorem attachAll_cluster_id (gs : List ProcedureGroup) (c : ClusterInfo) :
    (attachAll gs c).cluster_id = c.cluster_id := by
  induction gs generalizing c with
  | nil => rfl
  | cons g gs ih => rw [attachAll_cons, ih, attachFun_cluster_id]

theorem mem_attachFun_of_mem {gid : String} (g : ProcedureGroup) (c : ClusterInfo)
    (h : gid ∈ c.group_ids) : gid ∈ (attachFun g c).group_ids := by
  unfold attachFun; split_ifs <;> simp [h]

theorem mem_attachAll_of_mem {gid : String} (gs : List ProcedureGroup) (c : ClusterInfo)
    (h : gid ∈ c.group_ids) : gid ∈ (attachAll gs c).group_ids := by
  induction gs generalizing c with
  | nil => exact h
  | cons g gs ih => exact ih _ (mem_attachFun_of_mem g c h)

theorem attachFun_self (g : ProcedureGroup) (c : ClusterInfo)
    (h : c.cluster_id = g.cluster_id) : g.group_id ∈ (attachFun g c).group_ids := by
  unfold attachFun
  rw [if_pos h]
  split_ifs with h2
  · exact h2
  · simp

theorem attachAll_complete {g : ProcedureGroup} (gs : List ProcedureGroup) (c : ClusterInfo)
    (hg : g ∈ gs) (h : c.cluster_id = g.cluster_id) :
    g.group_id ∈ (attachAll gs c).group_ids := by
  induction gs generalizing c with
  | nil => cases hg
  | cons g' gs ih =>
    rw [attachAll_cons]
    rcases List.mem_cons.1 hg with rfl | hg'
    · exact mem_attachAll_of_mem gs _ (attachFun_self g c h)
    · exact ih _ hg' (by rw [attachFun_cluster_id]; exact h)

theorem mem_attachFun {gid : String} (g : ProcedureGroup) (c : ClusterInfo)
    (h : gid ∈ (attachFun g c).group_ids) :
    gid ∈ c.group_ids ∨ (gid = g.group_id ∧ g.cluster_id = c.cluster_id) := by
  unfold attachFun at h
  split_ifs at h with h1 h2
  · exact Or.inl h
  · rcases List.mem_append.1 h with hl | hr
    · exact Or.inl hl
    · exact Or.inr ⟨List.mem_singleton.1 hr, h1.symm⟩
  · exact Or.inl h

theorem mem_attachAll {gid : String} (gs : List ProcedureGroup) (c : ClusterInfo)
    (h : gid ∈ (attachAll gs c).group_ids) :
    gid ∈ c.group_ids ∨ ∃ g, g ∈ gs ∧ gid = g.group_id ∧ g.cluster_id = c.cluster_id := by
  induction gs generalizing c with
  | nil => exact Or.inl h
  | cons g' gs ih =>
    rw [attachAll_cons] at h
    rcases ih _ h with hmem | ⟨g, hg, hid, hcl⟩
    · rcases mem_attachFun g' c hmem with hl | ⟨hid, hcl⟩
      · exact Or.inl hl
      · exact Or.inr ⟨g', List.mem_cons_self _ _, hid, hcl⟩
    · rw [attachFun_cluster_id] at hcl
      exact Or.inr ⟨g, List.mem_cons_of_mem _ hg, hid, hcl⟩

theorem attachFun_eq_self (g : ProcedureGroup) (c : ClusterInfo)
    (h : c.cluster_id = g.cluster_id → g.group_id ∈ c.group_ids) : attachFun g c = c := by
  unfold attachFun
  split_ifs with h1 h2
  · rfl
  · exact absurd (h h1) h2
  · rfl

theorem attachAll_eq_self (gs : List ProcedureGroup) (c : ClusterInfo)
    (h : ∀ g ∈ gs, c.cluster_id = g.cluster_id → g.group_id ∈ c.group_ids) :
    attachAll gs c = c := by
  induction gs with
  | nil => rfl
  | cons g gs ih =>
    rw [attachAll_cons, attachFun_eq_self g c (h g (List.mem_cons_self _ _))]
    exact ih (fun g' hg' => h g' (List.mem_cons_of_mem _ hg'))

theorem findGroup?_mem {gs : List ProcedureGroup} {gid : String} {g : ProcedureGroup}
    (h : findGroup? gs gid = some g) : g ∈ gs ∧ g.group_id = gid := by
  refine ⟨List.mem_of_find?_eq_some h, ?_⟩
  have := List.find?_some h
  simpa using this

theorem findGroup?_eq_some_self {gs : List ProcedureGroup} {g : ProcedureGroup}
    (hnd : (groupIds gs).Nodup) (hg : g ∈ gs) : findGroup? gs g.group_id = some g := by
  induction gs with
  | nil => cases hg
  | cons g' gs ih =>
    simp only [groupIds, List.map_cons, List.nodup_cons] at hnd
    rcases List.mem_cons.1 hg with rfl | hmem
    · simp [findGroup?, List.find?]
    · have hne : ¬(g'.group_id = g.group_id) := by
        intro he
        exact hnd.1 (he ▸ List.mem_map_of_mem (·.group_id) hmem)
      have hstep : List.find? (fun x => decide (x.group_id = g.group_id)) (g' :: gs)
          = List.find? (fun x => decide (x.group_id = g.group_id)) gs := by
        simp [List.find?, hne]
      show List.find? (fun x => decide (x.group_id = g.group_id)) (g' :: gs) = some g
      rw [hstep]
      exact ih hnd.2 hmem

theorem claimsCluster_true {gs : List ProcedureGroup} {cid gid : String}
    (h : claimsCluster gs cid gid = true) :
    ∃ g, g ∈ gs ∧ g.group_id = gid ∧ g.cluster_id = cid := by
  unfold claimsCluster at h
  rcases hf : findGroup? gs gid with _ | g
  · rw [hf] at h; cases h
  · rw [hf] at h
    obtain ⟨hmem, hid⟩ := findGroup?_mem hf
    exact ⟨g, hmem, hid, by simpa using h⟩

theorem pruneFun_cluster_id (gs : List ProcedureGroup) (c : ClusterInfo) :
    (pruneFun gs c).cluster_id = c.cluster_id := rfl

theorem pruneFun_eq_self (gs : List ProcedureGroup) (c : ClusterInfo)
    (h : ∀ gid ∈ c.group_ids, claimsCluster gs c.cluster_id gid = true) :
    pruneFun gs c = c := by
  unfold pruneFun
  rw [List.filter_eq_self.mpr h]

theorem mem_pruneFun {gs : List ProcedureGroup} {c : ClusterInfo} {gid : String} :
    gid ∈ (pruneFun gs c).group_ids ↔
      gid ∈ c.group_ids ∧ claimsCluster gs c.cluster_id gid = true := by
  unfold pruneFun
  simp [List.mem_filter]

theorem summarizeCluster_group_ids (gs : List ProcedureGroup) (c : ClusterInfo) :
    (summarizeCluster gs c).group_ids = c.group_ids := rfl

theorem summarizeCluster_cluster_id (gs : List ProcedureGroup) (c : ClusterInfo) :
    (summarizeCluster gs c).cluster_id = c.cluster_id := rfl

theorem summarizeCluster_idem (gs : List ProcedureGroup) (c : ClusterInfo) :
    summarizeCluster gs (summarizeCluster gs c) = summarizeCluster gs c := rfl

theorem attachGroups_eq_map (gs : List ProcedureGroup) (cs : List ClusterInfo) :
    attachGroups gs cs = cs.map (attachAll gs) := by
  induction gs generalizing cs with
  | nil =>
    show cs = cs.map (attachAll [])
    rw [show cs.map (attachAll []) = cs.map id from List.map_congr_left (fun c _ => rfl),
      List.map_id]
  | cons g gs ih =>
    show attachGroups gs (cs.map (attachFun g)) = _
    rw [ih, List.map_map]
    rfl

/-- The per-cluster effect of `rebuild_indexes` on the clusters map. -/
def rebuildClusterFun (gs : List ProcedureGroup) (c : ClusterInfo) : ClusterInfo :=
  summarizeCluster gs (attachAll gs (pruneFun gs c))

theorem rebuildIndexes_clusters (s : ClusterState) :
    (rebuildIndexes s).clusters = s.clusters.map (rebuildClusterFun s.groups) := by
  show List.map (summarizeCluster s.groups)
      (attachGroups s.groups (List.map (pruneFun s.groups) s.clusters)) =
    s.clusters.map (rebuildClusterFun s.groups)
  rw [attachGroups_eq_map, List.map_map, List.map_map]
  rfl

theorem rebuildClusterFun_cluster_id (gs : List ProcedureGroup) (c : ClusterInfo) :
    (rebuildClusterFun gs c).cluster_id = c.cluster_id := by
  unfold rebuildClusterFun
  rw [summarizeCluster_cluster_id, attachAll_cluster_id, pruneFun_cluster_id]

/-- Characterization of membership after a rebuild: a group id is listed in
a rebuilt cluster exactly when some group with that id claims the
cluster. -/
theorem mem_rebuildClusterFun {gs : List ProcedureGroup} {c : ClusterInfo} {gid : String} :
    gid ∈ (rebuildClusterFun gs c).group_ids ↔
      ∃ g, g ∈ gs ∧ g.group_id = gid ∧ g.cluster_id = c.cluster_id := by
  unfold rebuildClusterFun
  rw [summarizeCluster_group_ids]
  constructor
  · intro h
    rcases mem_attachAll _ _ h with hp | ⟨g, hg, hid, hcl⟩
    · obtain ⟨-, hcl⟩ := mem_pruneFun.1 hp
      rcases claimsCluster_true hcl with ⟨g, hmem, hid, hc⟩
      exact ⟨g, hmem, hid, hc⟩
    · rw [pruneFun_cluster_id] at hcl
      exact ⟨g, hg, hid.symm, hcl⟩
  · rintro ⟨g, hg, rfl, hcl⟩
    exact attachAll_complete _ _ hg (by rw [pruneFun_cluster_id]; exact hcl.symm)

theorem rebuildClusterFun_stable (gs : List ProcedureGroup)
    (hnd : (groupIds gs).Nodup) (c : ClusterInfo) :
    rebuildClusterFun gs (rebuildClusterFun gs c) = rebuildClusterFun gs c := by
  set d := rebuildClusterFun gs c with hd
  have hclid : d.cluster_id = c.cluster_id := rebuildClusterFun_cluster_id gs c
  have hprune : pruneFun gs d = d := by
    apply pruneFun_eq_self
    intro gid hgid
    rcases mem_rebuildClusterFun.1 (hd ▸ hgid) with ⟨g, hg, hid, hcl⟩
    unfold claimsCluster
    rw [← hid, findGroup?_eq_some_self hnd hg]
    simp [hclid, hcl]
  have hattach : attachAll gs d = d := by
    apply attachAll_eq_self
    intro g hg hcl
    rw [hd]
    exact mem_rebuildClusterFun.2 ⟨g, hg, rfl, by rw [← hclid, hcl]⟩
  show summarizeCluster gs (attachAll gs (pruneFun gs d)) = d
  rw [hprune, hattach, hd]
  exact summarizeCluster_idem gs _

theorem rebuildIndexes_groups (s : ClusterState) : (rebuildIndexes s).groups = s.groups := rfl

theorem rebuildIndexes_missing (s : ClusterState) :
    (rebuildIndexes s).missing_tables = s.missing_tables := rfl

theorem rebuildIndexes_orphaned (s : ClusterState) :
    (rebuildIndexes s).orphaned_tables = s.orphaned_tables := rfl

/-- C5 core: `rebuild_indexes` is idempotent on any state whose groups map
has well-formed (distinct) keys. -/
theorem rebuildIndexes_idem (s : ClusterState) (hnd : (groupIds s.groups).Nodup) :
    rebuildIndexes (rebuildIndexes s) = rebuildIndexes s := by
  apply ClusterState.ext
  case clusters =>
    rw [rebuildIndexes_clusters (rebuildIndexes s), rebuildIndexes_clusters s,
      rebuildIndexes_groups, List.map_map]
    exact List.map_congr_left (fun c _ => rebuildClusterFun_stable s.groups hnd c)
  all_goals rfl

/-! ### Errors and name resolution. -/

/-- Error raised by an operation: `KeyError` (lookup miss) or `ValueError`
(ambiguous reference or precondition violation), carrying the offending
identifier.  The source's message strings add no information callers
consume. -/
inductive OpError
  | keyError (ident : String)
  | valueError (ident : String)
deriving DecidableEq

/-- Result of a mutation: on success the new state and the operation's
return value; on failure the error together with the state at the moment
of the raise (so atomicity is a genuine statement about the model). -/
abbrev OpResult (ρ : Type) := Except (OpError × ClusterState) (ClusterState × ρ)

/-- Truthy case-insensitive display-name match
(`cluster.display_name and cluster.display_name.lower() == identifier_lower`;
`None` and the empty string are falsy). -/
def displayMatches (dn : Option String) (identLower : String) : Bool :=
  match dn with
  | some d => decide (d ≠ "" ∧ strLower d = identLower)
  | none => false

/-- `find_cluster_id`: resolve a cluster by id or by unique
case-insensitive display name. -/
def findClusterId (s : ClusterState) (ident : String) : Except OpError String :=
  if ident ∈ clusterIds s then .ok ident
  else
    match s.clusters.filter (fun c => displayMatches c.display_name (strLower ident)) with
    | [c] => .ok c.cluster_id
    | [] => .error (.keyError ident)
    | _ => .error (.valueError ident)

/-- `find_group_id`: resolve a group by id or by unique case-insensitive
display name. -/
def findGroupId (s : ClusterState) (ident : String) : Except OpError String :=
  if ident ∈ groupIds s.groups then .ok ident
  else
    match s.groups.filter (fun g => displayMatches g.display_name (strLower ident)) with
    | [g] => .ok g.group_id
    | [] => .error (.keyError ident)
    | _ => .error (.valueError ident)

/-- `find_group_by_procedure`: first group (dict order) containing the
procedure. -/
def findGroupByProc (gs : List ProcedureGroup) (p : String) : Option ProcedureGroup :=
  gs.find? (fun g => p ∈ g.procedures)

/-- Python falsiness of an optional display name: `None` or `""`. -/
def displayFalsy (dn : Option String) : Bool :=
  decide (dn = none ∨ dn = some "")

/-! ### Mutations (`backend.py` lines 311–898). -/

/-- `rename_cluster`. -/
def renameCluster (s : ClusterState) (ident newName : String) : OpResult Unit :=
  match findClusterId s ident with
  | .error e => .error (e, s)
  | .ok cid =>
    let cs1 := updateClusterById s.clusters cid
      (fun c => { c with display_name := some newName.trim })
    .ok (rebuildIndexes { s with clusters := cs1 }, ())

/-- `rename_group`. -/
def renameGroup (s : ClusterState) (ident newName : String) : OpResult Unit :=
  match findGroupId s ident with
  | .error e => .error (e, s)
  | .ok gid =>
    let gs1 := updateGroupById s.groups gid
      (fun g => { g with display_name := some newName.trim })
    .ok (rebuildIndexes { s with groups := gs1 }, ())

/-- `move_group`.  The target-cluster dict lookup cannot miss (the id was
just resolved), so it is modelled as the in-place update. -/
def moveGroup (s : ClusterState) (gident tident : String) : OpResult Unit :=
  match findGroupId s gident with
  | .error e => .error (e, s)
  | .ok gid =>
  match findClusterId s tident with
  | .error e => .error (e, s)
  | .ok tc =>
  match findGroup? s.groups gid with
  | none => .error (.keyError gid, s)
  | some g =>
    if g.cluster_id = tc then .ok (s, ())
    else
      let cs1 := updateClusterById s.clusters g.cluster_id
        (fun c => { c with group_ids := c.group_ids.filter (fun x => x ≠ gid) })
      let cs2 := updateClusterById cs1 tc
        (fun c => if gid ∈ c.group_ids then c
                  else { c with group_ids := c.group_ids ++ [gid] })
      let gs1 := updateGroupById s.groups gid (fun g0 => { g0 with cluster_id := tc })
      .ok (rebuildIndexes { s with clusters := cs2, groups := gs1 }, ())

/-- The source group after `move_procedure` filters the procedure out:
shrink, refresh the singleton flag when at most one procedure remains, and
default the display name to the remaining procedure. -/
def shrunkSourceGroup (g : ProcedureGroup) (p : String) : ProcedureGroup :=
  let newProcs := g.procedures.filter (fun q => q ≠ p)
  if newProcs.length ≤ 1 then
    let sing := decide (newProcs.length = 1)
    let g' := { g with procedures := newProcs, is_singleton := sing }
    if sing && displayFalsy g'.display_name then
      { g' with display_name := newProcs.head? }
    else g'
  else { g with procedures := newProcs }

/-- The new singleton group created by `move_procedure`'s split. -/
def splitSingleton (g : ProcedureGroup) (p tc nid : String) : ProcedureGroup :=
  { group_id := nid, cluster_id := tc, procedures := [p], tables := g.tables,
    is_singleton := true, display_name := some p }

/-- The state after `move_procedure`'s split, before its rebuild: the
shrunk source group, the inserted singleton, the appended group order, and
the target cluster's extended membership list. -/
def moveSplitState (s : ClusterState) (g : ProcedureGroup) (p tc nid : String) :
    ClusterState :=
  { s with
    groups := insertGroup (updateGroupById s.groups g.group_id
      (fun _ => shrunkSourceGroup g p)) (splitSingleton g p tc nid),
    group_order := s.group_order ++ [nid],
    clusters := updateClusterById s.clusters tc
      (fun c => { c with group_ids := c.group_ids ++ [nid] }) }

/-- `move_procedure`: returns `(group_id, cluster_id)` of the procedure's
(possibly new) group. -/
def moveProcedure (s : ClusterState) (p tident : String) : OpResult (String × String) :=
  match findClusterId s tident with
  | .error e => .error (e, s)
  | .ok tc =>
  match findGroupByProc s.groups p with
  | none => .error (.keyError p, s)
  | some g =>
    if g.cluster_id = tc ∧ g.is_singleton then .ok (s, (g.group_id, tc))
    else if g.is_singleton then
      match moveGroup s g.group_id tc with
      | .error e => .error e
      | .ok (s', _) => .ok (s', (g.group_id, tc))
    else if p ∉ g.procedures then .error (.keyError p, s)
    else
      let nid := freshWith p "__" p (groupIds s.groups)
      .ok (rebuildIndexes (moveSplitState s g p tc nid), (nid, tc))

/-- Number of active users of table `t` other than procedure `p` (the
counting loop of `delete_procedure`: the procedure's own group counts if
it keeps another procedure, any other non-trash group counts if it
references `t`). -/
def usageAfterRemoval (gs : List ProcedureGroup) (origId p t : String) : Nat :=
  (gs.filter (fun g => decide (g.cluster_id ≠ "trash" ∧
    (if g.group_id = origId then g.procedures.filter (fun q => q ≠ p) ≠ []
     else t ∈ g.tables)))).length

/-- Return value of `delete_procedure`. -/
structure DeleteProcResult where
  deleted_procedure : String
  original_group : String
  original_cluster : String
  empty_group_deleted : Bool
  moved_to_trash_group : String
  tables_now_orphaned : List String
  tables_auto_removed : List String
deriving DecidableEq

/-- The purge loop of `delete_procedure`: for every table of a snapshot of
the missing set, if it is (still) orphaned, drop it from both sets,
collecting the purged tables. -/
def purgeBoth (snapshot missing orphaned : List String) :
    List String × List String × List String :=
  snapshot.foldl
    (fun acc t =>
      if t ∈ acc.2.1 then
        (acc.1.filter (fun x => x ≠ t), acc.2.1.filter (fun x => x ≠ t), acc.2.2 ++ [t])
      else acc)
    (missing, orphaned, [])

/-- `delete_procedure`. -/
def deleteProcedure (s : ClusterState) (p : String) : OpResult DeleteProcResult :=
  match findGroupByProc s.groups p with
  | none => .error (.keyError p, s)
  | some g =>
  if g.cluster_id = "trash" then .error (.valueError p, s)
  else
    let origId := g.group_id
    let origCluster := g.cluster_id
    let ptables := g.tables
    let toOrphan := ptables.filter (fun t => usageAfterRemoval s.groups origId p t = 0)
    let pdata : ProcTrashData :=
      { procedure_name := p,
        original_group_id := origId,
        original_cluster_id := origCluster,
        tables := ptables }
    let titem : TrashItem := { data := TrashData.procedureData pdata }
    let trash1 := s.trash ++ [titem]
    let newProcs := g.procedures.filter (fun q => q ≠ p)
    let step1 : Except (OpError × ClusterState)
        (List ProcedureGroup × List String × List ClusterInfo × Bool) :=
      if newProcs = [] then
        let cs1 := updateClusterById s.clusters origCluster
          (fun c => { c with group_ids := c.group_ids.filter (fun x => x ≠ origId) })
        let gsEmpty := updateGroupById s.groups origId
          (fun g0 => { g0 with procedures := newProcs })
        if origId ∈ s.group_order then
          .ok (gsEmpty.filter (fun g0 => g0.group_id ≠ origId),
            s.group_order.erase origId, cs1, true)
        else .error (.valueError origId,
          { s with trash := trash1, groups := gsEmpty, clusters := cs1 })
      else
        let sing := decide (newProcs.length = 1)
        let g1 := { g with procedures := newProcs, is_singleton := sing }
        let g2 := if sing && displayFalsy g1.display_name then
            { g1 with display_name := newProcs.head? }
          else g1
        .ok (updateGroupById s.groups origId (fun _ => g2),
          s.group_order, s.clusters, false)
    match step1 with
    | .error e => .error e
    | .ok (gs2, go2, cs2, emptyDeleted) =>
      let tid := freshWith ("trash_" ++ p) "_" ("trash_" ++ p) (groupIds gs2)
      let tg : ProcedureGroup :=
        { group_id := tid, cluster_id := "trash", procedures := [p], tables := [],
          is_singleton := true, display_name := some p }
      let gs3 := insertGroup gs2 tg
      let go3 := go2 ++ [tid]
      if "trash" ∈ cs2.map (·.cluster_id) then
        let cs3 := updateClusterById cs2 "trash"
          (fun c => { c with group_ids := c.group_ids ++ [tid] })
        let orph1 := toOrphan.foldl (fun o t => List.insert t o) s.orphaned_tables
        let pm := purgeBoth s.missing_tables s.missing_tables orph1
        let s' :=
          { s with
            groups := gs3,
            group_order := go3,
            clusters := cs3,
            trash := trash1,
            missing_tables := pm.1,
            orphaned_tables := pm.2.1 }
        let res : DeleteProcResult :=
          { deleted_procedure := p,
            original_group := origId,
            original_cluster := origCluster,
            empty_group_deleted := emptyDeleted,
            moved_to_trash_group := tid,
            tables_now_orphaned := toOrphan,
            tables_auto_removed := pm.2.2 }
        .ok (rebuildIndexes s', res)
      else .error (.keyError "trash",
        { s with groups := gs3, group_order := go3, clusters := cs2, trash := trash1 })

/-- Return value of `delete_table`. -/
structure DeleteTableResult where
  deleted_table : String
  was_global : Bool
  was_orphaned : Bool
  became_missing : Bool
  referencing_groups : List String
  auto_removed : Bool
deriving DecidableEq

/-- `delete_table`. -/
def deleteTable (s : ClusterState) (t : String) : OpResult DeleteTableResult :=
  if t ∈ s.missing_tables then .error (.valueError t, s)
  else
    let isGlobal : Bool := decide (t ∈ s.global_tables)
    let isOrph : Bool := decide (t ∈ s.orphaned_tables)
    let refs := (s.groups.filter
      (fun g => decide (t ∈ g.tables ∧ g.cluster_id ≠ "trash"))).map (·.group_id)
    if !isGlobal && !isOrph && refs.isEmpty then .error (.keyError t, s)
    else
      let becameMissing := !refs.isEmpty
      let tdata : TableTrashData :=
        { table_name := t,
          was_global := isGlobal,
          was_orphaned := isOrph,
          referencing_groups := refs }
      let trash1 := s.trash ++ [{ data := TrashData.tableData tdata }]
      let gt1 := s.global_tables.filter (fun x => x ≠ t)
      let orph1 := s.orphaned_tables.filter (fun x => x ≠ t)
      let miss1 := if becameMissing then List.insert t s.missing_tables
        else s.missing_tables
      let both : Bool := decide (t ∈ miss1) && decide (t ∈ orph1)
      let miss2 := if both then miss1.filter (fun x => x ≠ t) else miss1
      let orph2 := if both then orph1.filter (fun x => x ≠ t) else orph1
      let s' :=
        { s with
          trash := trash1,
          global_tables := gt1,
          orphaned_tables := orph2,
          missing_tables := miss2 }
      let res : DeleteTableResult :=
        { deleted_table := t,
          was_global := isGlobal,
          was_orphaned := isOrph,
          became_missing := becameMissing,
          referencing_groups := refs,
          auto_removed := both }
      .ok (rebuildIndexes s', res)

/-- Return value of `restore_procedure`. -/
structure RestoreProcResult where
  restored_procedure : String
  target_cluster : String
  target_group : String
  action : String
  similarity : ℚ
  exact_match : Bool
  tables_reinserted : List String
  tables_unorphaned : List String
deriving DecidableEq

/-- Python set equality of two lists of names. -/
def sameSet (a b : List String) : Bool :=
  a.all (fun x => decide (x ∈ b)) && b.all (fun x => decide (x ∈ a))

/-- Shared tail of `restore_procedure`: take the procedure out of its
trash group; if that group became empty, remove it from the trash
cluster's list (`clusters["trash"]` may `KeyError`; `list.remove` raises
when its target is absent), from the group order, and from the groups
dict. -/
def removeFromTrashGroup (base : ClusterState) (tgid p : String) :
    Except (OpError × ClusterState) ClusterState :=
  let gs1 := updateGroupById base.groups tgid
    (fun g0 => { g0 with procedures := g0.procedures.erase p })
  let s1 := { base with groups := gs1 }
  let emptied := match findGroup? gs1 tgid with
    | some g0 => decide (g0.procedures = [])
    | none => false
  if emptied then
    match findCluster? s1.clusters "trash" with
    | none => .error (.keyError "trash", s1)
    | some ctr =>
      if tgid ∈ ctr.group_ids then
        let cs1 := updateClusterById s1.clusters "trash"
          (fun c => { c with group_ids := c.group_ids.erase tgid })
        let s2 := { s1 with clusters := cs1 }
        if tgid ∈ s2.group_order then
          let s3 :=
            { s2 with
              group_order := s2.group_order.erase tgid,
              groups := s2.groups.filter (fun g0 => g0.group_id ≠ tgid) }
          .ok s3
        else .error (.valueError tgid, s2)
      else .error (.valueError tgid, s1)
  else .ok s1

/-- `restore_procedure`.  Note that the procedure's table set is read from
the trash group's `tables` field (a Python set, modelled in
first-occurrence order), not from the trash record. -/
def restoreProcedure (s : ClusterState) (p tcid : String) (forceNew : Bool) :
    OpResult RestoreProcResult :=
  match findGroupByProc s.groups p with
  | none => .error (.keyError p, s)
  | some tg =>
  if tg.cluster_id ≠ "trash" then .error (.valueError p, s)
  else if tcid ∉ clusterIds s then .error (.keyError tcid, s)
  else if tcid = "trash" then .error (.valueError tcid, s)
  else
    let ptables := dedupF tg.tables
    let reinserted := ptables.filter (fun t => t ∈ s.missing_tables)
    let miss1 := ptables.foldl
      (fun m t => if t ∈ m then List.insert t m else m) s.missing_tables
    let exactMatch : Option ProcedureGroup :=
      if forceNew then none
      else match findCluster? s.clusters tcid with
        | none => none
        | some tcl =>
          (tcl.group_ids.filterMap (fun gid => findGroup? s.groups gid)).find?
            (fun g0 => sameSet ptables g0.tables)
    let unorphan := fun (orphaned : List String) =>
      ptables.foldl
        (fun acc t => if t ∈ acc.1 then (acc.1.filter (fun x => x ≠ t), acc.2 ++ [t])
                      else acc)
        (orphaned, ([] : List String))
    match exactMatch with
    | some mg =>
      let gs1 := updateGroupById s.groups mg.group_id
        (fun g0 => { g0 with procedures := g0.procedures ++ [p], is_singleton := false })
      let s1 := { s with missing_tables := miss1, groups := gs1 }
      match removeFromTrashGroup s1 tg.group_id p with
      | .error e => .error e
      | .ok s2 =>
        let ou := unorphan s2.orphaned_tables
        let res : RestoreProcResult :=
          { restored_procedure := p,
            target_cluster := tcid,
            target_group := mg.group_id,
            action := "joined_existing_group",
            similarity := 1,
            exact_match := true,
            tables_reinserted := reinserted,
            tables_unorphaned := ou.2 }
        .ok (rebuildIndexes { s2 with orphaned_tables := ou.1 }, res)
    | none =>
      let nid := freshWith p "_" p (groupIds s.groups)
      let ng : ProcedureGroup :=
        { group_id := nid, cluster_id := tcid, procedures := [p],
          tables := ptables, is_singleton := true, display_name := some p }
      let cs1 := updateClusterById s.clusters tcid
        (fun c => { c with group_ids := c.group_ids ++ [nid] })
      let s1 :=
        { s with
          missing_tables := miss1,
          groups := insertGroup s.groups ng,
          group_order := s.group_order ++ [nid],
          clusters := cs1 }
      match removeFromTrashGroup s1 tg.group_id p with
      | .error e => .error e
      | .ok s2 =>
        let ou := unorphan s2.orphaned_tables
        let res : RestoreProcResult :=
          { restored_procedure := p,
            target_cluster := tcid,
            target_group := nid,
            action := "created_new_group",
            similarity := 0,
            exact_match := false,
            tables_reinserted := reinserted,
            tables_unorphaned := ou.2 }
        .ok (rebuildIndexes { s2 with orphaned_tables := ou.1 }, res)

/-- Return value of `restore_table`. -/
structure RestoreTableResult where
  restored_table : String
  was_global : Bool
  was_orphaned : Bool
deriving DecidableEq

/-- `restore_table` (the index is bounds-checked; a negative Python int is
representable, hence `Int`). -/
def restoreTable (s : ClusterState) (i : Int) : OpResult RestoreTableResult :=
  if i < 0 ∨ (s.trash.length : Int) ≤ i then .error (.valueError "trash_index", s)
  else
    let idx := i.toNat
    match s.trash[idx]? with
    | none => .error (.valueError "trash_index", s)
    | some item =>
      match item.data with
      | .procedureData _ => .error (.valueError "item_type", s)
      | .tableData d =>
        let orph1 := if d.was_orphaned then List.insert d.table_name s.orphaned_tables
          else s.orphaned_tables
        let s' :=
          { s with
            missing_tables := s.missing_tables.filter (fun x => x ≠ d.table_name),
            orphaned_tables := orph1,
            trash := s.trash.eraseIdx idx }
        let res : RestoreTableResult :=
          { restored_table := d.table_name,
            was_global := d.was_global,
            was_orphaned := d.was_orphaned }
        .ok (rebuildIndexes s', res)

/-- Return value of `add_cluster`. -/
structure AddClusterResult where
  created_cluster : String
  display_name : String
deriving DecidableEq

/-- `add_cluster` (`display_name or cluster_id`: `None` and `""` fall back
to the id). -/
def addCluster (s : ClusterState) (cid : String) (dname : Option String) :
    OpResult AddClusterResult :=
  if cid ∈ clusterIds s then .error (.valueError cid, s)
  else
    let disp := match dname with
      | some d => if d = "" then cid else d
      | none => cid
    let c : ClusterInfo :=
      { cluster_id := cid,
        group_ids := [],
        display_name := some disp }
    let s' :=
      { s with
        clusters := s.clusters ++ [c],
        cluster_order := s.cluster_order ++ [cid] }
    .ok (rebuildIndexes s', { created_cluster := cid, display_name := disp })

/-- Return value of `delete_cluster_if_empty`. -/
structure DeleteClusterResult where
  deleted_cluster : String
deriving DecidableEq

/-- `delete_cluster_if_empty`.  The source performs no rebuild here;
`cluster_order.remove` raises (before any mutation) when the id is not in
the order list. -/
def deleteClusterIfEmpty (s : ClusterState) (ident : String) :
    OpResult DeleteClusterResult :=
  match findClusterId s ident with
  | .error e => .error (e, s)
  | .ok cid =>
  match findCluster? s.clusters cid with
  | none => .error (.keyError cid, s)
  | some c =>
    if cid = "trash" then .error (.valueError cid, s)
    else if c.group_ids ≠ [] then .error (.valueError cid, s)
    else if cid ∈ s.cluster_order then
      let s' :=
        { s with
          cluster_order := s.cluster_order.erase cid,
          clusters := s.clusters.filter (fun c0 => c0.cluster_id ≠ cid) }
      .ok (s', { deleted_cluster := cid })
    else .error (.valueError cid, s)

/-- Return value of `empty_trash`. -/
structure EmptyTrashResult where
  deleted_tables : Nat
  deleted_procedures : Nat
  procedures : List String
  total : Nat
deriving DecidableEq

/-- Loop of `empty_trash` over the trash cluster's group ids: delete each
listed group that (still) exists, accumulating its procedures;
`group_order.remove` raises when the id is absent there. -/
def emptyTrashLoop : List String → List ProcedureGroup → List String → List String →
    Except (OpError × List ProcedureGroup × List String × List String)
      (List ProcedureGroup × List String × List String)
  | [], gs, go, acc => .ok (gs, go, acc)
  | gid :: rest, gs, go, acc =>
    match findGroup? gs gid with
    | none => emptyTrashLoop rest gs go acc
    | some g =>
      let acc1 := acc ++ g.procedures
      if gid ∈ go then
        emptyTrashLoop rest (gs.filter (fun g0 => g0.group_id ≠ gid)) (go.erase gid) acc1
      else .error (.valueError gid, gs, go, acc1)

/-- `empty_trash`. -/
def emptyTrash (s : ClusterState) : OpResult EmptyTrashResult :=
  let tableCount := (s.trash.filter (fun it => match it.data with
    | .tableData _ => true
    | .procedureData _ => false)).length
  match findCluster? s.clusters "trash" with
  | none =>
    .ok (rebuildIndexes { s with trash := [] },
      { deleted_tables := tableCount, deleted_procedures := 0, procedures := [],
        total := tableCount })
  | some ctr =>
    match emptyTrashLoop ctr.group_ids s.groups s.group_order [] with
    | .error (e, gs1, go1, _) => .error (e, { s with groups := gs1, group_order := go1 })
    | .ok (gs1, go1, procs) =>
      let cs1 := updateClusterById s.clusters "trash"
        (fun c => { c with group_ids := [] })
      let s' :=
        { s with
          groups := gs1,
          group_order := go1,
          clusters := cs1,
          trash := [] }
      let res : EmptyTrashResult :=
        { deleted_tables := tableCount,
          deleted_procedures := procs.length,
          procedures := procs,
          total := tableCount + procs.length }
      .ok (rebuildIndexes s', res)

/-! ### Clustering algorithms (`cluster/clustering.py`). -/

/-- Input of `identify_global_tables`: one cluster summary (only the
`cluster_id` and `tables` fields are read). -/
structure ClusterSummary where
  cluster_id : String
  tables : List String
deriving DecidableEq

/-- `identify_global_tables`: tables referenced by at least `minClusters`
distinct cluster ids (empty when there are fewer clusters than that). -/
def identifyGlobalTables (clusters : List ClusterSummary) (minClusters : Nat) :
    List String :=
  if clusters.length < minClusters then []
  else
    (dedupF (clusters.flatMap (·.tables))).filter (fun t =>
      minClusters ≤
        (dedupF ((clusters.filter (fun c => t ∈ c.tables)).map (·.cluster_id))).length)

/-- Distinct table set of group `i` (`set(group["tables"])`) in the
clustering functions, whose groups are read only through their `tables`
lists. -/
def tableSetOf (groups : List (List String)) (i : Nat) : List String :=
  dedupF ((groups.get? i).getD [])

/-- `index_by_table[t]` restricted to qualifying groups and sorted — the
inverted index lists group indices in ascending (enumeration) order. -/
def candidatesFor (groups : List (List String)) (minSize : Nat) (t : String) :
    List Nat :=
  (List.range groups.length).filter
    (fun i => t ∈ tableSetOf groups i ∧ minSize ≤ (tableSetOf groups i).length)

/-- The tables of the inverted index, in first-occurrence order (per group
the source iterates a Python set, whose order is unspecified; no claim
depends on the edge list's order). -/
def allGroupTables (groups : List (List String)) : List String :=
  dedupF (groups.flatMap (fun g => dedupF g))

/-- Key list of the `pair_intersections` counter, in insertion order: for
each table, each qualifying pair in combination order, kept at first
occurrence. -/
def pairKeys (groups : List (List String)) (minSize : Nat) : List (Nat × Nat) :=
  dedupF ((allGroupTables groups).flatMap
    (fun t => pairsOf (candidatesFor groups minSize t)))

/-- `pair_intersections[(l, r)]`: number of tables co-occurring in the two
qualifying groups. -/
def pairIntersection (groups : List (List String)) (minSize : Nat) (l r : Nat) : Nat :=
  ((allGroupTables groups).filter
    (fun t => l ∈ candidatesFor groups minSize t ∧ r ∈ candidatesFor groups minSize t)).length

/-- `build_similarity_edges`: one edge per counted pair whose Jaccard
similarity `|A∩B| / (|A|+|B|−|A∩B|)` reaches the threshold. -/
def buildSimilarityEdges (groups : List (List String)) (minSize : Nat) (θ : ℚ) :
    List (Nat × Nat × ℚ) :=
  (pairKeys groups minSize).filterMap (fun lr =>
    let i := pairIntersection groups minSize lr.1 lr.2
    let ls := (tableSetOf groups lr.1).length
    let rs := (tableSetOf groups lr.2).length
    let u : Int := (ls : Int) + rs - i
    if u ≤ 0 then none
    else
      let sim : ℚ := (i : ℚ) / (u : ℚ)
      if θ ≤ sim then some (lr.1, lr.2, sim) else none)

/-- Whether group `i` has a similarity edge (`adjacency` in
`build_clusters_two_phase`). -/
def isConnected (edges : List (Nat × Nat × ℚ)) (i : Nat) : Bool :=
  edges.any (fun e => decide (e.1 = i ∨ e.2.1 = i))

/-- The Phase-2 sort key: `len(groups[idx]["tables"])` (the raw list). -/
def tableCount (groups : List (List String)) (i : Nat) : Nat :=
  ((groups.get? i).getD []).length

/-- Union of the table sets of a cluster's members (a Python set). -/
def clusterTables (groups : List (List String)) (members : List Nat) : List String :=
  dedupF (members.flatMap (fun i => tableSetOf groups i))

/-- Cluster-level Jaccard similarity of group `i` against a member list
(`0.0` on an empty union). -/
def clusterSimilarity (groups : List (List String)) (i : Nat) (members : List Nat) :
    ℚ :=
  let gt := tableSetOf groups i
  let ct := clusterTables groups members
  let inter := (gt.filter (fun t => t ∈ ct)).length
  let uni := (gt ++ ct.filter (fun t => t ∉ gt)).length
  if 0 < uni then (inter : ℚ) / (uni : ℚ) else 0

/-- The assignment loop's best-cluster search: maximal cluster-level
similarity, ties broken toward the currently smaller cluster; the
accumulator `(best_cluster_idx, best_similarity)` starts at `(-1, -1.0)`. -/
def bestCluster (groups : List (List String)) (clusters : List (List Nat)) (i : Nat) :
    Int × ℚ :=
  (clusters.enum).foldl
    (fun acc ci =>
      let sim := clusterSimilarity groups i ci.2
      if acc.2 < sim then ((ci.1 : Int), sim)
      else if sim = acc.2 ∧ 0 ≤ acc.1 then
        (if ci.2.length < ((clusters.get? acc.1.toNat).getD []).length then
          ((ci.1 : Int), sim)
        else acc)
      else acc)
    (-1, (-1 : ℚ))

/-- One Phase-2 step: join the best cluster when
`best_similarity > 0 and best_similarity >= min_assignment_similarity`,
otherwise seed a brand-new cluster (also when no cluster exists yet). -/
def assignGroup (groups : List (List String)) (minAssign : ℚ)
    (clusters : List (List Nat)) (i : Nat) : List (List Nat) :=
  if clusters = [] then [[i]]
  else
    let bc := bestCluster groups clusters i
    if 0 < bc.2 ∧ minAssign ≤ bc.2 then
      (clusters.enum).map (fun ci => if (ci.1 : Int) = bc.1 then ci.2 ++ [i] else ci.2)
    else clusters ++ [[i]]

/-- Phase 2's processing order: connected groups sorted by table count
descending (Python's stable sort with `reverse=True`). -/
def sortConnected (groups : List (List String)) (l : List Nat) : List Nat :=
  stableSort (fun a b => tableCount groups b ≤ tableCount groups a) l

/-- `build_clusters_two_phase`: Phase 1 turns isolated groups into
singleton clusters; Phase 2 folds `assignGroup` over the connected groups;
the result is sorted by `(-size, smallest member)` with members sorted. -/
def buildClustersTwoPhase (groups : List (List String))
    (edges : List (Nat × Nat × ℚ)) (minAssign : ℚ) : List (List Nat) :=
  let isolated := (List.range groups.length).filter (fun i => !isConnected edges i)
  let connected := (List.range groups.length).filter (fun i => isConnected edges i)
  let phase1 : List (List Nat) := isolated.map (fun i => [i])
  let phase2 := (sortConnected groups connected).foldl (assignGroup groups minAssign) phase1
  let sortedClusters := stableSort (fun a b =>
    b.length < a.length ∨ (a.length = b.length ∧ (a.min?.getD 0) ≤ (b.min?.getD 0))) phase2
  sortedClusters.map (fun members => stableSort (fun x y => x ≤ y) members)

/-- The state carried by a result: the new state on success, the raise-time
state on failure. -/
def resState {ρ : Type} (r : OpResult ρ) : ClusterState :=
  match r with
  | .ok (s, _) => s
  | .error (_, s) => s

/-- Whether a result is a success. -/
def resOk {ρ : Type} (r : OpResult ρ) : Bool :=
  match r with
  | .ok _ => true
  | .error _ => false

/-! ### A small concrete state, used to instantiate theorems. -/

/-- A two-procedure group in cluster `c0`. -/
def examplePG0 : ProcedureGroup :=
  { group_id := "PG0", cluster_id := "c0", procedures := ["p1", "p2"],
    tables := ["t1", "t2"], is_singleton := false }

/-- A singleton group in cluster `c0`. -/
def exampleP3 : ProcedureGroup :=
  { group_id := "p3", cluster_id := "c0", procedures := ["p3"],
    tables := ["t3"], is_singleton := true, display_name := some "p3" }

/-- A small well-formed state: two active clusters, the trash cluster, a
two-procedure group and a singleton. -/
def exampleState : ClusterState :=
  { clusters := [
      { cluster_id := "c0", group_ids := ["PG0", "p3"], display_name := some "Orders" },
      { cluster_id := "c1", group_ids := [], display_name := some "Misc" },
      { cluster_id := "trash", group_ids := [], display_name := some "Trash" }],
    groups := [examplePG0, exampleP3],
    cluster_order := ["c0", "c1", "trash"],
    group_order := ["PG0", "p3"],
    global_tables := [],
    missing_tables := [],
    orphaned_tables := [],
    similarity_edges := [],
    parameters := {} }

/-! ### Claims C5 and C6. -/

/-- C5.  Rebuild is idempotent: for every state (with well-formed, i.e.
duplicate-free, group keys — a Python dict cannot hold duplicate keys),
running `rebuild_indexes` twice in a row yields the same derived state
(cluster `group_ids`, cluster procedures/tables/procedure_count,
`table_usage`, `global_tables`, `table_nodes`, `procedure_table_edges`,
`similarity_edges`) as running it once; here proved as equality of the
entire resulting state. -/
theorem claim_C5_rebuild_idempotent (s : ClusterState)
    (hnd : (groupIds s.groups).Nodup) :
    rebuildIndexes (rebuildIndexes s) = rebuildIndexes s :=
  rebuildIndexes_idem s hnd

/-- Witness for C5 at the concrete example state. -/
theorem claim_C5_witness :
    rebuildIndexes (rebuildIndexes exampleState) = rebuildIndexes exampleState :=
  claim_C5_rebuild_idempotent exampleState (by decide)

/-- C6.  Partition invariant: after `rebuild_indexes` completes on a state
with well-formed dict keys in which every group's `cluster_id` names an
existing cluster, every group in the groups map appears in the `group_ids`
membership list of exactly one cluster, namely the cluster named by its
`cluster_id` field. -/
theorem claim_C6_partition_invariant (s : ClusterState)
    (hg : (groupIds s.groups).Nodup)
    (hc : (s.clusters.map (·.cluster_id)).Nodup)
    (hin : ∀ g ∈ s.groups, g.cluster_id ∈ s.clusters.map (·.cluster_id)) :
    ∀ g ∈ (rebuildIndexes s).groups,
      ∃ c, c ∈ (rebuildIndexes s).clusters ∧ c.cluster_id = g.cluster_id ∧
        g.group_id ∈ c.group_ids ∧
        ∀ c' ∈ (rebuildIndexes s).clusters, g.group_id ∈ c'.group_ids → c' = c := by
  intro g hgmem
  rw [rebuildIndexes_groups] at hgmem
  obtain ⟨c0, hc0mem, hc0id⟩ := List.mem_map.1 (hin g hgmem)
  refine ⟨rebuildClusterFun s.groups c0, ?_, ?_, ?_, ?_⟩
  · rw [rebuildIndexes_clusters]
    exact List.mem_map_of_mem _ hc0mem
  · rw [rebuildClusterFun_cluster_id]
    exact hc0id
  · exact mem_rebuildClusterFun.2 ⟨g, hgmem, rfl, hc0id.symm⟩
  · intro c' hc'mem hmem'
    rw [rebuildIndexes_clusters] at hc'mem
    obtain ⟨c1, hc1mem, rfl⟩ := List.mem_map.1 hc'mem
    obtain ⟨g', hg'mem, hg'id, hg'cl⟩ := mem_rebuildClusterFun.1 hmem'
    have hgg : g' = g :=
      List.inj_on_of_nodup_map hg hg'mem hgmem hg'id
    have hc1id : c1.cluster_id = c0.cluster_id := by
      rw [hg'cl.symm, hgg, hc0id]
    have : c1 = c0 := List.inj_on_of_nodup_map hc hc1mem hc0mem hc1id
    rw [this]

/-- Witness for C6: the two-procedure group of the example state lies in
exactly one rebuilt cluster, namely `c0`. -/
theorem claim_C6_witness :
    ∃ c, c ∈ (rebuildIndexes exampleState).clusters ∧
      c.cluster_id = examplePG0.cluster_id ∧
      examplePG0.group_id ∈ c.group_ids ∧
      ∀ c' ∈ (rebuildIndexes exampleState).clusters,
        examplePG0.group_id ∈ c'.group_ids → c' = c :=
  claim_C6_partition_invariant exampleState (by decide) (by decide) (by decide)
    examplePG0 (by decide)

/-! ### Claims C2 and C9. -/

/-- C9.  Monotonicity of global-table classification: for every fixed set
of clusters and thresholds `m1 ≤ m2`, the global tables computed with
`min_global_clusters = m2` are a subset of those computed with `m1`. -/
theorem claim_C9_global_tables_antitone (clusters : List ClusterSummary)
    (m1 m2 : Nat) (h : m1 ≤ m2) :
    ∀ t ∈ identifyGlobalTables clusters m2, t ∈ identifyGlobalTables clusters m1 := by
  intro t ht
  unfold identifyGlobalTables at ht ⊢
  by_cases h2 : clusters.length < m2
  · rw [if_pos h2] at ht
    cases ht
  · rw [if_neg h2] at ht
    rw [if_neg (by omega)]
    rw [List.mem_filter] at ht ⊢
    refine ⟨ht.1, ?_⟩
    have h2' := ht.2
    simp only [decide_eq_true_eq] at h2' ⊢
    omega

/-- Witness for C9: a table spanning both clusters is global at threshold 2,
hence also at threshold 1. -/
theorem claim_C9_witness :
    "t" ∈ identifyGlobalTables
      [{ cluster_id := "c0", tables := ["t"] },
       { cluster_id := "c1", tables := ["t"] }] 1 :=
  claim_C9_global_tables_antitone _ 1 2 (by decide) "t" (by with_unfolding_all decide)

/-- C2 counterexample: groups 0 and 1 are both connected (one edge at
similarity 1/2); with `min_assignment_similarity = 1/2`, group 1's best
cluster-level similarity is exactly 1/2 — at, not above, the threshold —
yet Phase 2 joins it to cluster 0 (`best > 0 and best >= threshold`)
instead of seeding a brand-new cluster as the claim demands. -/
theorem claim_C2_counterexample :
    (bestCluster [["t1", "t2"], ["t1"]] [[0]] 1).2 = 1/2 ∧
    (bestCluster [["t1", "t2"], ["t1"]] [[0]] 1).2 ≤ 1/2 ∧
    assignGroup [["t1", "t2"], ["t1"]] (1/2) [[0]] 1 = [[0, 1]] ∧
    assignGroup [["t1", "t2"], ["t1"]] (1/2) [[0]] 1 ≠ [[0]] ++ [[1]] ∧
    buildClustersTwoPhase [["t1", "t2"], ["t1"]] [(0, 1, 1/2)] (1/2) = [[0, 1]] := by
  with_unfolding_all decide

/-- C2 (amended).  In two-phase assembly Phase 2, a group whose best
cluster-level similarity is zero or strictly below the configured
minimum-assignment threshold is placed into a brand-new cluster (at a
positive similarity equal to the threshold the group joins the best
existing cluster instead). -/
theorem claim_C2_low_similarity_seeds_new_cluster
    (groups : List (List String)) (minAssign : ℚ)
    (clusters : List (List Nat)) (i : Nat)
    (h : clusters = [] ∨ (bestCluster groups clusters i).2 = 0 ∨
      (bestCluster groups clusters i).2 < minAssign) :
    assignGroup groups minAssign clusters i = clusters ++ [[i]] := by
  by_cases hc : clusters = []
  · rw [hc]
    simp [assignGroup]
  · unfold assignGroup
    rw [if_neg hc, if_neg]
    rintro ⟨hpos, hge⟩
    rcases h with h | h0 | hlt
    · exact hc h
    · rw [h0] at hpos
      exact lt_irrefl 0 hpos
    · exact absurd hge (not_le.mpr hlt)

/-- Witness for C2 (amended): group 1 shares no table with cluster 0, so
its best similarity is 0 and it seeds a new cluster. -/
theorem claim_C2_witness :
    assignGroup [["t1", "t2"], ["t3"]] (1/2) [[0]] 1 = [[0]] ++ [[1]] :=
  claim_C2_low_similarity_seeds_new_cluster [["t1", "t2"], ["t3"]] (1/2) [[0]] 1
    (Or.inr (Or.inl (by with_unfolding_all decide)))

/-! ### Claim C8: soundness of the similarity edge list. -/

theorem mem_pairsOf {α : Type} {a b : α} :
    ∀ {l : List α}, (a, b) ∈ pairsOf l → a ∈ l ∧ b ∈ l := by
  intro l
  induction l with
  | nil => intro h; cases h
  | cons x xs ih =>
    intro h
    rcases List.mem_append.1 h with hl | hr
    · rcases List.mem_map.1 hl with ⟨y, hy, he⟩
      rw [Prod.mk.injEq] at he
      obtain ⟨rfl, rfl⟩ := he
      exact ⟨List.mem_cons_self _ _, List.mem_cons_of_mem _ hy⟩
    · obtain ⟨ha, hb⟩ := ih hr
      exact ⟨List.mem_cons_of_mem _ ha, List.mem_cons_of_mem _ hb⟩

theorem pairsOf_rel {α : Type} {R : α → α → Prop} :
    ∀ {l : List α}, l.Pairwise R → ∀ {a b : α}, (a, b) ∈ pairsOf l → R a b := by
  intro l
  induction l with
  | nil => intro _ a b h; cases h
  | cons x xs ih =>
    intro hp a b h
    rcases List.mem_append.1 h with hl | hr
    · rcases List.mem_map.1 hl with ⟨y, hy, he⟩
      rw [Prod.mk.injEq] at he
      obtain ⟨rfl, rfl⟩ := he
      exact (List.pairwise_cons.1 hp).1 y hy
    · exact ih (List.pairwise_cons.1 hp).2 hr

theorem candidatesFor_lt (groups : List (List String)) (minSize : Nat) (t : String) :
    (candidatesFor groups minSize t).Pairwise (· < ·) :=
  List.Pairwise.sublist (List.filter_sublist _) (List.pairwise_lt_range _)

theorem mem_candidatesFor {groups : List (List String)} {minSize : Nat} {t : String}
    {i : Nat} (h : i ∈ candidatesFor groups minSize t) :
    t ∈ tableSetOf groups i ∧ minSize ≤ (tableSetOf groups i).length := by
  have := (List.mem_filter.1 h).2
  simpa using this

theorem mem_pairKeys {groups : List (List String)} {minSize : Nat} {lr : Nat × Nat}
    (h : lr ∈ pairKeys groups minSize) :
    lr.1 < lr.2 ∧ ∃ t, t ∈ allGroupTables groups ∧
      lr.1 ∈ candidatesFor groups minSize t ∧ lr.2 ∈ candidatesFor groups minSize t := by
  obtain ⟨l, r⟩ := lr
  rw [pairKeys, mem_dedupF] at h
  rcases List.mem_flatMap.1 h with ⟨t, ht, hp⟩
  exact ⟨pairsOf_rel (candidatesFor_lt groups minSize t) hp,
    t, ht, (mem_pairsOf hp).1, (mem_pairsOf hp).2⟩

theorem pairIntersection_pos {groups : List (List String)} {minSize : Nat}
    {lr : Nat × Nat} (h : lr ∈ pairKeys groups minSize) :
    1 ≤ pairIntersection groups minSize lr.1 lr.2 := by
  obtain ⟨-, t, ht, hl, hr⟩ := mem_pairKeys h
  have hmem : t ∈ (allGroupTables groups).filter
      (fun t => decide (lr.1 ∈ candidatesFor groups minSize t ∧
        lr.2 ∈ candidatesFor groups minSize t)) :=
    List.mem_filter.2 ⟨ht, by simp [hl, hr]⟩
  have := List.length_pos.2 (List.ne_nil_of_mem hmem)
  simpa [pairIntersection] using this

theorem pairIntersection_le_left (groups : List (List String)) (minSize : Nat)
    (l r : Nat) :
    pairIntersection groups minSize l r ≤ (tableSetOf groups l).length := by
  have hsub : ((allGroupTables groups).filter
      (fun t => decide (l ∈ candidatesFor groups minSize t ∧
        r ∈ candidatesFor groups minSize t))) ⊆ tableSetOf groups l := by
    intro t ht
    have h2 := (List.mem_filter.1 ht).2
    simp only [decide_eq_true_eq] at h2
    exact (mem_candidatesFor h2.1).1
  have hnd : ((allGroupTables groups).filter
      (fun t => decide (l ∈ candidatesFor groups minSize t ∧
        r ∈ candidatesFor groups minSize t))).Nodup :=
    (nodup_dedupF _).filter _
  exact (hnd.subperm hsub).length_le

theorem pairIntersection_le_right (groups : List (List String)) (minSize : Nat)
    (l r : Nat) :
    pairIntersection groups minSize l r ≤ (tableSetOf groups r).length := by
  have hsub : ((allGroupTables groups).filter
      (fun t => decide (l ∈ candidatesFor groups minSize t ∧
        r ∈ candidatesFor groups minSize t))) ⊆ tableSetOf groups r := by
    intro t ht
    have h2 := (List.mem_filter.1 ht).2
    simp only [decide_eq_true_eq] at h2
    exact (mem_candidatesFor h2.2).1
  have hnd : ((allGroupTables groups).filter
      (fun t => decide (l ∈ candidatesFor groups minSize t ∧
        r ∈ candidatesFor groups minSize t))).Nodup :=
    (nodup_dedupF _).filter _
  exact (hnd.subperm hsub).length_le

theorem nodup_filterMap_map {α γ : Type} (f : α → Option γ) (g : γ → α)
    (hfg : ∀ a b, f a = some b → g b = a) :
    ∀ {l : List α}, l.Nodup → ((l.filterMap f).map g).Nodup := by
  intro l
  induction l with
  | nil => simp
  | cons x xs ih =>
    intro hnd
    rw [List.filterMap_cons]
    rcases hx : f x with _ | b
    · exact ih (List.nodup_cons.1 hnd).2
    · rw [List.map_cons]
      refine List.nodup_cons.2 ⟨?_, ih (List.nodup_cons.1 hnd).2⟩
      intro hmem
      rcases List.mem_map.1 hmem with ⟨e, he, hge⟩
      rcases List.mem_filterMap.1 he with ⟨a, ha, hfa⟩
      have hea : g e = a := hfg a e hfa
      have hgb : g b = x := hfg x b hx
      have : a = x := by rw [← hea, hge, hgb]
      exact (List.nodup_cons.1 hnd).1 (this ▸ ha)

/-- The loop body of `build_similarity_edges`, as a function of the pair key. -/
def edgeOfPair (groups : List (List String)) (minSize : Nat) (θ : ℚ)
    (lr : Nat × Nat) : Option (Nat × Nat × ℚ) :=
  let i := pairIntersection groups minSize lr.1 lr.2
  let ls := (tableSetOf groups lr.1).length
  let rs := (tableSetOf groups lr.2).length
  let u : Int := (ls : Int) + rs - i
  if u ≤ 0 then none
  else
    let sim : ℚ := (i : ℚ) / (u : ℚ)
    if θ ≤ sim then some (lr.1, lr.2, sim) else none

theorem buildSimilarityEdges_eq (groups : List (List String)) (minSize : Nat)
    (θ : ℚ) :
    buildSimilarityEdges groups minSize θ
      = (pairKeys groups minSize).filterMap (edgeOfPair groups minSize θ) := rfl

theorem edgeOfPair_proj {groups : List (List String)} {minSize : Nat} {θ : ℚ}
    {lr : Nat × Nat} {e : Nat × Nat × ℚ}
    (h : edgeOfPair groups minSize θ lr = some e) : (e.1, e.2.1) = lr := by
  unfold edgeOfPair at h
  simp only at h
  split at h
  · cases h
  · split at h
    · cases h
      rfl
    · cases h

/-- C8.  For every set of groups, minimum group size and threshold, the
edge list of `build_similarity_edges` contains no self-edge (every edge is
normalized `left < right`), every similarity lies in `[0, 1]` and at or
above the threshold, and no unordered pair of groups carries two edges
(the projected pair list has no duplicate). -/
theorem claim_C8_similarity_edges_sound (groups : List (List String))
    (minSize : Nat) (θ : ℚ) :
    (∀ e ∈ buildSimilarityEdges groups minSize θ,
      e.1 < e.2.1 ∧ 0 ≤ e.2.2 ∧ e.2.2 ≤ 1 ∧ θ ≤ e.2.2) ∧
    ((buildSimilarityEdges groups minSize θ).map (fun e => (e.1, e.2.1))).Nodup := by
  constructor
  · intro e he
    rw [buildSimilarityEdges_eq] at he
    rcases List.mem_filterMap.1 he with ⟨lr, hlr, hF⟩
    obtain ⟨hlt, -⟩ := mem_pairKeys hlr
    have hi1 : 1 ≤ pairIntersection groups minSize lr.1 lr.2 :=
      pairIntersection_pos hlr
    have hil := pairIntersection_le_left groups minSize lr.1 lr.2
    have hir := pairIntersection_le_right groups minSize lr.1 lr.2
    set i := pairIntersection groups minSize lr.1 lr.2 with hidef
    set ls := (tableSetOf groups lr.1).length with hlsdef
    set rs := (tableSetOf groups lr.2).length with hrsdef
    unfold edgeOfPair at hF
    simp only at hF
    split at hF
    · cases hF
    · rename_i hu
      split at hF
      · rename_i hθs
        cases hF
        have hupos : (0 : Int) < (ls : Int) + rs - i := by omega
        have huposQ : (0 : ℚ) < (((ls : Int) + rs - i : Int) : ℚ) := by
          exact_mod_cast hupos
        refine ⟨hlt, ?_, ?_, hθs⟩
        · positivity
        · rw [div_le_one huposQ]
          have : (i : Int) ≤ (ls : Int) + rs - i := by omega
          exact_mod_cast this
      · cases hF
  · rw [buildSimilarityEdges_eq]
    exact nodup_filterMap_map _ _ (fun a b h => edgeOfPair_proj h) (nodup_dedupF _)

/-! ### Claim C1: the trash round-trip. -/

/-- C1.  Deleting `p3` (a singleton on table `t3`) and then restoring it
to its original cluster with `force_new_group = true` does restore `p3` as
an active singleton group — but with an EMPTY table set, not its
pre-deletion table set: `delete_procedure` empties the trash group's
tables ("disconnected nodes"), and `restore_procedure` reads the trash
group's tables, never the trash record, even though the record retains the
pre-deletion list `["t3"]`.  This theorem evaluates the code at the
failing input. -/
theorem claim_C1_roundtrip_loses_tables :
    resOk (deleteProcedure exampleState "p3") = true ∧
    (resState (deleteProcedure exampleState "p3")).trash =
      [{ data := TrashData.procedureData
          { procedure_name := "p3", original_group_id := "p3",
            original_cluster_id := "c0", tables := ["t3"] } }] ∧
    resOk (restoreProcedure
      (resState (deleteProcedure exampleState "p3")) "p3" "c0" true) = true ∧
    findGroupByProc (resState (restoreProcedure
      (resState (deleteProcedure exampleState "p3")) "p3" "c0" true)).groups "p3"
      = some { group_id := "p3", cluster_id := "c0", procedures := ["p3"],
               tables := [], is_singleton := true, display_name := some "p3" } ∧
    ((findGroupByProc (resState (restoreProcedure
      (resState (deleteProcedure exampleState "p3")) "p3" "c0" true)).groups
        "p3").map (·.tables)) ≠ some ["t3"] := by
  with_unfolding_all decide

/-! ### Claim C10: move_procedure splits even into the group's own cluster. -/

theorem groupIds_updateGroupById (gs : List ProcedureGroup) (gid : String)
    (f : ProcedureGroup → ProcedureGroup)
    (hid : ∀ x : ProcedureGroup, x.group_id = gid → (f x).group_id = x.group_id) :
    groupIds (updateGroupById gs gid f) = groupIds gs := by
  simp only [groupIds, updateGroupById, List.map_map]
  apply List.map_congr_left
  intro x _
  simp only [Function.comp]
  split
  · exact hid x (by assumption)
  · rfl

theorem shrunkSourceGroup_group_id (g : ProcedureGroup) (p : String) :
    (shrunkSourceGroup g p).group_id = g.group_id := by
  simp only [shrunkSourceGroup]
  split
  · split <;> rfl
  · rfl

theorem shrunkSourceGroup_procedures (g : ProcedureGroup) (p : String) :
    (shrunkSourceGroup g p).procedures = g.procedures.filter (fun q => q ≠ p) := by
  simp only [shrunkSourceGroup]
  split
  · split <;> rfl
  · rfl

theorem moveSplitState_groups (s : ClusterState) (g : ProcedureGroup)
    (p tc nid : String) :
    (moveSplitState s g p tc nid).groups
      = insertGroup (updateGroupById s.groups g.group_id
          (fun _ => shrunkSourceGroup g p)) (splitSingleton g p tc nid) := rfl

/-- C10.  For a procedure `p` in a non-singleton group `g`,
`move_procedure(p, C)` with `C` equal to `g`'s own cluster still performs
the split: a new singleton group containing only `p`, carrying `g`'s table
set, is created in cluster `C` under a fresh id, and `p` is removed from
`g`; the degenerate whole-group no-op applies only when `g` is a singleton
already in `C`. -/
theorem claim_C10_move_own_cluster_still_splits (s : ClusterState) (p : String)
    (g : ProcedureGroup) (hg : findGroupByProc s.groups p = some g)
    (hc : g.cluster_id ∈ clusterIds s) :
    (g.is_singleton = false →
      resOk (moveProcedure s p g.cluster_id) = true ∧
      (∃ ng, ng ∈ (resState (moveProcedure s p g.cluster_id)).groups ∧
        ng.group_id ∉ groupIds s.groups ∧ ng.procedures = [p] ∧
        ng.tables = g.tables ∧ ng.cluster_id = g.cluster_id ∧
        ng.is_singleton = true) ∧
      (∀ g' ∈ (resState (moveProcedure s p g.cluster_id)).groups,
        g'.group_id = g.group_id → p ∉ g'.procedures)) ∧
    (g.is_singleton = true →
      moveProcedure s p g.cluster_id = .ok (s, (g.group_id, g.cluster_id))) := by
  have hp : p ∈ g.procedures := by
    have := List.find?_some hg
    simpa using this
  have hcl : findClusterId s g.cluster_id = .ok g.cluster_id := by
    unfold findClusterId
    rw [if_pos hc]
  constructor
  · intro hns
    have hres : moveProcedure s p g.cluster_id
        = .ok (rebuildIndexes (moveSplitState s g p g.cluster_id
            (freshWith p "__" p (groupIds s.groups))),
          (freshWith p "__" p (groupIds s.groups), g.cluster_id)) := by
      unfold moveProcedure
      rw [hcl, hg]
      dsimp only
      rw [if_neg (by simp [hns]), if_neg (by simp [hns]), if_neg (by simp [hp])]
    set nid := freshWith p "__" p (groupIds s.groups) with hnid
    have hfresh : nid ∉ groupIds s.groups := freshWith_not_mem p "__" p _
    have hids : groupIds (updateGroupById s.groups g.group_id
        (fun _ => shrunkSourceGroup g p)) = groupIds s.groups := by
      apply groupIds_updateGroupById
      intro x hx
      rw [shrunkSourceGroup_group_id, hx]
    have hinsert : insertGroup (updateGroupById s.groups g.group_id
          (fun _ => shrunkSourceGroup g p)) (splitSingleton g p g.cluster_id nid)
        = updateGroupById s.groups g.group_id (fun _ => shrunkSourceGroup g p)
          ++ [splitSingleton g p g.cluster_id nid] := by
      unfold insertGroup
      rw [if_neg]
      show ¬ nid ∈ _
      rw [hids]
      exact hfresh
    rw [hres]
    dsimp only [resOk, resState]
    refine ⟨rfl, ?_, ?_⟩
    · refine ⟨splitSingleton g p g.cluster_id nid, ?_, hfresh, rfl, rfl, rfl, rfl⟩
      rw [rebuildIndexes_groups, moveSplitState_groups, hinsert]
      exact List.mem_append_right _ (List.mem_singleton.2 rfl)
    · intro g' hg' hgid
      rw [rebuildIndexes_groups, moveSplitState_groups, hinsert] at hg'
      rcases List.mem_append.1 hg' with hmem | hlast
      · simp only [updateGroupById] at hmem
        rcases List.mem_map.1 hmem with ⟨x, hx, hxe⟩
        by_cases hxid : x.group_id = g.group_id
        · rw [if_pos hxid] at hxe
          rw [← hxe, shrunkSourceGroup_procedures]
          intro hpin
          have := (List.mem_filter.1 hpin).2
          simp at this
        · rw [if_neg hxid] at hxe
          rw [← hxe] at hgid
          exact absurd hgid hxid
      · have hsing := List.mem_singleton.1 hlast
        exfalso
        rw [hsing] at hgid
        apply hfresh
        rw [show nid = (splitSingleton g p g.cluster_id nid).group_id from rfl, hgid]
        exact List.mem_map_of_mem (·.group_id) (List.mem_of_find?_eq_some hg)
  · intro hsing
    unfold moveProcedure
    rw [hcl, hg]
    dsimp only
    rw [if_pos ⟨rfl, hsing⟩]

/-- Witness for C10: moving `p1` (member of the two-procedure group `PG0`)
to `PG0`'s own cluster `c0` splits it out as a fresh singleton. -/
theorem claim_C10_witness :
    (examplePG0.is_singleton = false →
      resOk (moveProcedure exampleState "p1" examplePG0.cluster_id) = true ∧
      (∃ ng, ng ∈ (resState (moveProcedure exampleState "p1" examplePG0.cluster_id)).groups ∧
        ng.group_id ∉ groupIds exampleState.groups ∧ ng.procedures = ["p1"] ∧
        ng.tables = examplePG0.tables ∧ ng.cluster_id = examplePG0.cluster_id ∧
        ng.is_singleton = true) ∧
      (∀ g' ∈ (resState (moveProcedure exampleState "p1" examplePG0.cluster_id)).groups,
        g'.group_id = examplePG0.group_id → "p1" ∉ g'.procedures)) ∧
    (examplePG0.is_singleton = true →
      moveProcedure exampleState "p1" examplePG0.cluster_id
        = .ok (exampleState, (examplePG0.group_id, examplePG0.cluster_id))) :=
  claim_C10_move_own_cluster_still_splits exampleState "p1" examplePG0
    (by with_unfolding_all decide) (by decide)

/-! ### Claim C3: atomicity of mutations. -/

theorem err_state_eq {ρ : Type} {e₀ e : OpError} {s₀ s' : ClusterState}
    (h : (Except.error (e₀, s₀) : OpResult ρ) = .error (e, s')) : s' = s₀ := by
  cases h
  rfl

/-- Well-formedness facts maintained by the service between operations:
the permanent trash cluster exists, every group id is listed in the group
order, and every group is listed by the cluster its `cluster_id` names.
Under these, every raise in a mutation happens before any mutation. -/
def WFState (s : ClusterState) : Prop :=
  (∃ c ∈ s.clusters, c.cluster_id = "trash") ∧
  (∀ g ∈ s.groups, g.group_id ∈ s.group_order) ∧
  (∀ g ∈ s.groups, ∀ c ∈ s.clusters, c.cluster_id = g.cluster_id →
    g.group_id ∈ c.group_ids)

theorem clusterIds_updateClusterById (cs : List ClusterInfo) (cid : String)
    (f : ClusterInfo → ClusterInfo)
    (hf : ∀ c : ClusterInfo, (f c).cluster_id = c.cluster_id) :
    (updateClusterById cs cid f).map (·.cluster_id) = cs.map (·.cluster_id) := by
  simp only [updateClusterById, List.map_map]
  apply List.map_congr_left
  intro c _
  simp only [Function.comp]
  split
  · exact hf c
  · rfl

theorem find?_map_invariant {α : Type} (g : α → α) (p : α → Bool)
    (hp : ∀ x, p (g x) = p x) (hid : ∀ x, p x = true → g x = x) :
    ∀ l : List α, (l.map g).find? p = l.find? p := by
  intro l
  induction l with
  | nil => rfl
  | cons x rest ih =>
    rw [List.map_cons]
    rcases hx : p x with _ | _
    · rw [List.find?_cons_of_neg _ (by rw [hp, hx]; exact Bool.false_ne_true),
        List.find?_cons_of_neg _ (by rw [hx]; exact Bool.false_ne_true)]
      exact ih
    · rw [List.find?_cons_of_pos _ (by rw [hp, hx]),
        List.find?_cons_of_pos _ hx, hid x hx]

theorem findCluster?_updateClusterById (cs : List ClusterInfo) (cid cid' : String)
    (f : ClusterInfo → ClusterInfo) (hne : cid' ≠ cid)
    (hf : ∀ c : ClusterInfo, (f c).cluster_id = c.cluster_id) :
    findCluster? (updateClusterById cs cid f) cid' = findCluster? cs cid' := by
  apply find?_map_invariant
  · intro c
    show decide ((if c.cluster_id = cid then f c else c).cluster_id = cid')
      = decide (c.cluster_id = cid')
    by_cases hcid : c.cluster_id = cid
    · rw [if_pos hcid, hf c]
    · rw [if_neg hcid]
  · intro c hc
    simp only [decide_eq_true_eq] at hc
    show (if c.cluster_id = cid then f c else c) = c
    rw [if_neg (fun hx => hne (hc ▸ hx))]

theorem moveGroup_atomic (s : ClusterState) (gi ti : String) (e : OpError)
    (s' : ClusterState) (h : moveGroup s gi ti = .error (e, s')) : s' = s := by
  unfold moveGroup at h
  rcases h1 : findGroupId s gi with e1 | gid
  · rw [h1] at h
    exact err_state_eq h
  · rw [h1] at h
    dsimp only at h
    rcases h2 : findClusterId s ti with e2 | tc
    · rw [h2] at h
      exact err_state_eq h
    · rw [h2] at h
      dsimp only at h
      rcases h3 : findGroup? s.groups gid with _ | g
      · rw [h3] at h
        exact err_state_eq h
      · rw [h3] at h
        dsimp only at h
        split at h
        · cases h
        · cases h

theorem moveProcedure_atomic (s : ClusterState) (p ti : String) (e : OpError)
    (s' : ClusterState) (h : moveProcedure s p ti = .error (e, s')) : s' = s := by
  unfold moveProcedure at h
  rcases h1 : findClusterId s ti with e1 | tc
  · rw [h1] at h
    exact err_state_eq h
  · rw [h1] at h
    dsimp only at h
    rcases h2 : findGroupByProc s.groups p with _ | g
    · rw [h2] at h
      exact err_state_eq h
    · rw [h2] at h
      dsimp only at h
      split at h
      · cases h
      · split at h
        · rcases h3 : moveGroup s g.group_id tc with ⟨e3, s3⟩ | ⟨s3, u⟩
          · rw [h3] at h
            dsimp only at h
            cases h
            exact moveGroup_atomic s g.group_id tc _ _ h3
          · rw [h3] at h
            dsimp only at h
            cases h
        · split at h
          · exact err_state_eq h
          · cases h

theorem deleteTable_atomic (s : ClusterState) (t : String) (e : OpError)
    (s' : ClusterState) (h : deleteTable s t = .error (e, s')) : s' = s := by
  unfold deleteTable at h
  split at h
  · exact err_state_eq h
  · simp only at h
    split at h
    · exact err_state_eq h
    · cases h

theorem restoreTable_atomic (s : ClusterState) (i : Int) (e : OpError)
    (s' : ClusterState) (h : restoreTable s i = .error (e, s')) : s' = s := by
  unfold restoreTable at h
  split at h
  · exact err_state_eq h
  · dsimp only at h
    split at h
    · exact err_state_eq h
    · split at h
      · exact err_state_eq h
      · cases h

theorem addCluster_atomic (s : ClusterState) (cid : String) (dn : Option String)
    (e : OpError) (s' : ClusterState)
    (h : addCluster s cid dn = .error (e, s')) : s' = s := by
  unfold addCluster at h
  split at h
  · exact err_state_eq h
  · cases h

theorem deleteClusterIfEmpty_atomic (s : ClusterState) (ident : String)
    (e : OpError) (s' : ClusterState)
    (h : deleteClusterIfEmpty s ident = .error (e, s')) : s' = s := by
  unfold deleteClusterIfEmpty at h
  rcases h1 : findClusterId s ident with e1 | cid
  · rw [h1] at h
    exact err_state_eq h
  · rw [h1] at h
    dsimp only at h
    rcases h2 : findCluster? s.clusters cid with _ | c
    · rw [h2] at h
      exact err_state_eq h
    · rw [h2] at h
      dsimp only at h
      split at h
      · exact err_state_eq h
      · split at h
        · exact err_state_eq h
        · split at h
          · cases h
          · exact err_state_eq h

theorem deleteProcedure_atomic (s : ClusterState) (hWF : WFState s) (p : String)
    (e : OpError) (s' : ClusterState)
    (h : deleteProcedure s p = .error (e, s')) : s' = s := by
  obtain ⟨⟨ctr0, hctrmem, hctrid⟩, hgo, hmemb⟩ := hWF
  unfold deleteProcedure at h
  rcases h1 : findGroupByProc s.groups p with _ | g
  · rw [h1] at h
    exact err_state_eq h
  · rw [h1] at h
    dsimp only at h
    split at h
    · exact err_state_eq h
    · split at h
      · rename_i es heq
        -- step1 produced an error: only possible when the emptied group's
        -- id is not in the group order, which WFState rules out
        split at heq
        · split at heq
          · cases heq
          · exfalso
            rename_i horder
            exact horder (hgo g (List.mem_of_find?_eq_some h1))
        · cases heq
      · rename_i gs2 go2 cs2 emp heq
        split at h
        · cases h
        · rename_i htrash
          exfalso
          apply htrash
          have hpres : cs2.map (·.cluster_id) = s.clusters.map (·.cluster_id) := by
            split at heq
            · split at heq
              · cases heq
                exact clusterIds_updateClusterById _ _ _ (fun c => rfl)
              · cases heq
            · cases heq
              rfl
          rw [hpres]
          rw [← hctrid]
          exact List.mem_map_of_mem (·.cluster_id) hctrmem

theorem removeFromTrashGroup_error_cases (base : ClusterState) (tgid p : String)
    (e : OpError × ClusterState)
    (h : removeFromTrashGroup base tgid p = .error e) :
    findCluster? base.clusters "trash" = none ∨
    (∃ ctr, findCluster? base.clusters "trash" = some ctr ∧ tgid ∉ ctr.group_ids) ∨
    tgid ∉ base.group_order := by
  unfold removeFromTrashGroup at h
  dsimp only at h
  split at h
  · rcases hf : findCluster? base.clusters "trash" with _ | ctr
    · exact Or.inl rfl
    · rw [hf] at h
      dsimp only at h
      split at h
      · split at h
        · cases h
        · rename_i hxgo
          exact Or.inr (Or.inr hxgo)
      · rename_i hxin
        exact Or.inr (Or.inl ⟨ctr, rfl, hxin⟩)
  · cases h

theorem restoreProcedure_atomic (s : ClusterState) (hWF : WFState s)
    (p tcid : String) (forceNew : Bool) (e : OpError) (s' : ClusterState)
    (h : restoreProcedure s p tcid forceNew = .error (e, s')) : s' = s := by
  obtain ⟨⟨ctr0, hctrmem, hctrid⟩, hgo, hmemb⟩ := hWF
  have hsome0 : (findCluster? s.clusters "trash").isSome = true := by
    apply List.find?_isSome.mpr
    exact ⟨ctr0, hctrmem, by simp [hctrid]⟩
  unfold restoreProcedure at h
  rcases h1 : findGroupByProc s.groups p with _ | tg
  · rw [h1] at h
    exact err_state_eq h
  · rw [h1] at h
    dsimp only at h
    split at h
    · exact err_state_eq h
    · rename_i htgne
      have htg : tg.cluster_id = "trash" := not_not.1 htgne
      have htgmem : tg ∈ s.groups := List.mem_of_find?_eq_some h1
      have htr0 : ∀ ctr, findCluster? s.clusters "trash" = some ctr →
          tg.group_id ∈ ctr.group_ids := by
        intro ctr hf
        apply hmemb tg htgmem ctr (List.mem_of_find?_eq_some hf)
        have := List.find?_some hf
        simp only [decide_eq_true_eq] at this
        rw [this, htg]
      split at h
      · exact err_state_eq h
      · rename_i htcin
        split at h
        · exact err_state_eq h
        · rename_i htcne
          split at h
          · -- join an exact-match group: the trash-group removal cannot fail
            split at h
            · rename_i e2 heq2
              exfalso
              rcases removeFromTrashGroup_error_cases _ _ _ _ heq2 with
                hc | ⟨ctr, hf, hni⟩ | hni
              · dsimp only at hc
                rw [hc] at hsome0
                simp at hsome0
              · dsimp only at hf
                exact hni (htr0 ctr hf)
              · dsimp only at hni
                exact hni (hgo tg htgmem)
            · cases h
          · -- create a new singleton group: the removal cannot fail either
            split at h
            · rename_i e2 heq2
              exfalso
              rcases removeFromTrashGroup_error_cases _ _ _ _ heq2 with
                hc | ⟨ctr, hf, hni⟩ | hni
              · dsimp only at hc
                rw [findCluster?_updateClusterById s.clusters tcid "trash"
                  (fun c => { c with group_ids :=
                    c.group_ids ++ [freshWith p "_" p (groupIds s.groups)] })
                  (fun hx => htcne hx.symm) (fun c => rfl)] at hc
                rw [hc] at hsome0
                simp at hsome0
              · dsimp only at hf
                rw [findCluster?_updateClusterById s.clusters tcid "trash"
                  (fun c => { c with group_ids :=
                    c.group_ids ++ [freshWith p "_" p (groupIds s.groups)] })
                  (fun hx => htcne hx.symm) (fun c => rfl)] at hf
                exact hni (htr0 ctr hf)
              · dsimp only at hni
                exact hni (List.mem_append_left _ (hgo tg htgmem))
            · cases h

/-- **C3.**  Atomicity of mutations: on any state satisfying the standing
well-formedness invariant (a cluster named "trash" exists, every group's id
occurs in `group_order`, and every group occurs in its own cluster's
`group_ids` membership list), every mutation entry point of `ClusterState`
(`move_procedure`, `delete_procedure`, `delete_table`, `restore_procedure`,
`restore_table`, `add_cluster`, `delete_cluster_if_empty`) that returns an
error reports a state equal to the state before the call — the whole state
(clusters, groups, group order, global/missing/orphaned sets, trash list)
is unchanged. -/
theorem claim_C3_mutation_atomicity (s : ClusterState) (hWF : WFState s) :
    (∀ p ti e s', moveProcedure s p ti = .error (e, s') → s' = s) ∧
    (∀ p e s', deleteProcedure s p = .error (e, s') → s' = s) ∧
    (∀ t e s', deleteTable s t = .error (e, s') → s' = s) ∧
    (∀ p tc fn e s', restoreProcedure s p tc fn = .error (e, s') → s' = s) ∧
    (∀ i e s', restoreTable s i = .error (e, s') → s' = s) ∧
    (∀ cid dn e s', addCluster s cid dn = .error (e, s') → s' = s) ∧
    (∀ ident e s', deleteClusterIfEmpty s ident = .error (e, s') → s' = s) := by
  refine ⟨?_, ?_, ?_, ?_, ?_, ?_, ?_⟩
  · intro p ti e s' h
    exact moveProcedure_atomic s p ti e s' h
  · intro p e s' h
    exact deleteProcedure_atomic s hWF p e s' h
  · intro t e s' h
    exact deleteTable_atomic s t e s' h
  · intro p tc fn e s' h
    exact restoreProcedure_atomic s hWF p tc fn e s' h
  · intro i e s' h
    exact restoreTable_atomic s i e s' h
  · intro cid dn e s' h
    exact addCluster_atomic s cid dn e s' h
  · intro ident e s' h
    exact deleteClusterIfEmpty_atomic s ident e s' h

/-- Witness for C3: the example state is well-formed and each entry point is
atomic on it. -/
theorem claim_C3_witness :
    WFState exampleState ∧
    ((∀ p ti e s', moveProcedure exampleState p ti = .error (e, s') →
        s' = exampleState) ∧
      (∀ p e s', deleteProcedure exampleState p = .error (e, s') →
        s' = exampleState) ∧
      (∀ t e s', deleteTable exampleState t = .error (e, s') →
        s' = exampleState) ∧
      (∀ p tc fn e s', restoreProcedure exampleState p tc fn = .error (e, s') →
        s' = exampleState) ∧
      (∀ i e s', restoreTable exampleState i = .error (e, s') →
        s' = exampleState) ∧
      (∀ cid dn e s', addCluster exampleState cid dn = .error (e, s') →
        s' = exampleState) ∧
      (∀ ident e s', deleteClusterIfEmpty exampleState ident = .error (e, s') →
        s' = exampleState)) :=
  ⟨by unfold WFState; with_unfolding_all decide,
   claim_C3_mutation_atomicity exampleState
     (by unfold WFState; with_unfolding_all decide)⟩

/-! ### Claim C7: `missing_tables` and `orphaned_tables` stay disjoint. -/

/-- No table is simultaneously missing and orphaned. -/
def disjointMO (s : ClusterState) : Prop :=
  ∀ t ∈ s.missing_tables, t ∉ s.orphaned_tables

theorem mem_of_ite_filter {c : Prop} [Decidable c] (p : String → Bool)
    (l : List String) (x : String)
    (h : x ∈ (if c then l.filter p else l)) : x ∈ l := by
  split at h
  · exact (List.mem_filter.1 h).1
  · exact h

theorem mem_of_ite_insert {c : Prop} [Decidable c] (t : String)
    (l : List String) (x : String)
    (h : x ∈ (if c then List.insert t l else l)) : x = t ∨ x ∈ l := by
  split at h
  · exact List.mem_insert_iff.1 h
  · exact Or.inr h

/-- The missing-table re-insertion loop of `restore_procedure` only ever
"inserts" names that are already present, so it is the identity. -/
theorem foldl_insert_mem_id (l : List String) :
    ∀ init : List String,
      l.foldl (fun m t => if t ∈ m then List.insert t m else m) init = init := by
  induction l with
  | nil => intro init; rfl
  | cons t l ih =>
    intro init
    dsimp only [List.foldl]
    split
    · rename_i hmem
      rw [List.insert_of_mem hmem]
      exact ih init
    · exact ih init

/-- The un-orphaning loop of `restore_procedure` only removes names from
the orphaned set. -/
theorem unorphan_fold_subset (l : List String) :
    ∀ (o r : List String) (x : String),
      x ∈ (l.foldl
        (fun acc t =>
          if t ∈ acc.1 then (acc.1.filter (fun x => x ≠ t), acc.2 ++ [t])
          else acc)
        (o, r)).1 → x ∈ o := by
  induction l with
  | nil =>
    intro o r x hx
    exact hx
  | cons t l ih =>
    intro o r x hx
    dsimp only [List.foldl] at hx
    by_cases hto : t ∈ o
    · rw [if_pos hto] at hx
      exact (List.mem_filter.1 (ih _ _ x hx)).1
    · rw [if_neg hto] at hx
      exact ih _ _ x hx

/-- The purge loop of `delete_procedure` makes the two sets disjoint, as
long as every missing name is in the iterated snapshot. -/
theorem purge_fold_disjoint (snap : List String) :
    ∀ m o r : List String, (∀ x, x ∈ m → x ∈ o → x ∈ snap) →
    ∀ x, x ∈ (snap.foldl
        (fun acc t =>
          if t ∈ acc.2.1 then
            (acc.1.filter (fun x => x ≠ t), acc.2.1.filter (fun x => x ≠ t),
              acc.2.2 ++ [t])
          else acc)
        (m, o, r)).1 →
      x ∉ (snap.foldl
        (fun acc t =>
          if t ∈ acc.2.1 then
            (acc.1.filter (fun x => x ≠ t), acc.2.1.filter (fun x => x ≠ t),
              acc.2.2 ++ [t])
          else acc)
        (m, o, r)).2.1 := by
  induction snap with
  | nil =>
    intro m o r hinv x hm ho
    exact absurd (hinv x hm ho) (List.not_mem_nil x)
  | cons t snap ih =>
    intro m o r hinv x
    dsimp only [List.foldl]
    by_cases hto : t ∈ o
    · rw [if_pos hto]
      refine ih _ _ _ ?_ x
      intro y hym hyo
      have h1 := List.mem_filter.1 hym
      have h2 := List.mem_filter.1 hyo
      rcases List.mem_cons.1 (hinv y h1.1 h2.1) with rfl | hmem
      · exact absurd rfl (of_decide_eq_true h1.2)
      · exact hmem
    · rw [if_neg hto]
      refine ih _ _ _ ?_ x
      intro y hym hyo
      rcases List.mem_cons.1 (hinv y hym hyo) with rfl | hmem
      · exact absurd hyo hto
      · exact hmem

theorem purgeBoth_disjoint (snap m o : List String)
    (hinv : ∀ x, x ∈ m → x ∈ o → x ∈ snap) :
    ∀ x, x ∈ (purgeBoth snap m o).1 → x ∉ (purgeBoth snap m o).2.1 := by
  unfold purgeBoth
  exact purge_fold_disjoint snap m o [] hinv

theorem renameCluster_mo (s : ClusterState) (ident nn : String)
    (s₂ : ClusterState) (u : Unit) (h : renameCluster s ident nn = .ok (s₂, u)) :
    s₂.missing_tables = s.missing_tables ∧
      s₂.orphaned_tables = s.orphaned_tables := by
  unfold renameCluster at h
  rcases h1 : findClusterId s ident with e1 | cid
  · rw [h1] at h
    cases h
  · rw [h1] at h
    dsimp only at h
    cases h
    exact ⟨rfl, rfl⟩

theorem renameGroup_mo (s : ClusterState) (ident nn : String)
    (s₂ : ClusterState) (u : Unit) (h : renameGroup s ident nn = .ok (s₂, u)) :
    s₂.missing_tables = s.missing_tables ∧
      s₂.orphaned_tables = s.orphaned_tables := by
  unfold renameGroup at h
  rcases h1 : findGroupId s ident with e1 | gid
  · rw [h1] at h
    cases h
  · rw [h1] at h
    dsimp only at h
    cases h
    exact ⟨rfl, rfl⟩

theorem moveGroup_mo (s : ClusterState) (gi ti : String)
    (s₂ : ClusterState) (u : Unit) (h : moveGroup s gi ti = .ok (s₂, u)) :
    s₂.missing_tables = s.missing_tables ∧
      s₂.orphaned_tables = s.orphaned_tables := by
  unfold moveGroup at h
  rcases h1 : findGroupId s gi with e1 | gid
  · rw [h1] at h
    cases h
  · rw [h1] at h
    dsimp only at h
    rcases h2 : findClusterId s ti with e2 | tc
    · rw [h2] at h
      cases h
    · rw [h2] at h
      dsimp only at h
      rcases h3 : findGroup? s.groups gid with _ | g
      · rw [h3] at h
        cases h
      · rw [h3] at h
        dsimp only at h
        split at h
        · cases h
          exact ⟨rfl, rfl⟩
        · cases h
          exact ⟨rfl, rfl⟩

theorem moveProcedure_mo (s : ClusterState) (p ti : String)
    (s₂ : ClusterState) (r : String × String)
    (h : moveProcedure s p ti = .ok (s₂, r)) :
    s₂.missing_tables = s.missing_tables ∧
      s₂.orphaned_tables = s.orphaned_tables := by
  unfold moveProcedure at h
  rcases h1 : findClusterId s ti with e1 | tc
  · rw [h1] at h
    cases h
  · rw [h1] at h
    dsimp only at h
    rcases h2 : findGroupByProc s.groups p with _ | g
    · rw [h2] at h
      cases h
    · rw [h2] at h
      dsimp only at h
      split at h
      · cases h
        exact ⟨rfl, rfl⟩
      · split at h
        · rcases h3 : moveGroup s g.group_id tc with ⟨e3, s3⟩ | ⟨s3, u3⟩
          · rw [h3] at h
            dsimp only at h
            cases h
          · rw [h3] at h
            dsimp only at h
            cases h
            exact moveGroup_mo s g.group_id tc _ _ h3
        · split at h
          · cases h
          · cases h
            exact ⟨rfl, rfl⟩

theorem addCluster_mo (s : ClusterState) (cid : String) (dn : Option String)
    (s₂ : ClusterState) (r : AddClusterResult)
    (h : addCluster s cid dn = .ok (s₂, r)) :
    s₂.missing_tables = s.missing_tables ∧
      s₂.orphaned_tables = s.orphaned_tables := by
  unfold addCluster at h
  split at h
  · cases h
  · dsimp only at h
    cases h
    exact ⟨rfl, rfl⟩

theorem deleteClusterIfEmpty_mo (s : ClusterState) (ident : String)
    (s₂ : ClusterState) (r : DeleteClusterResult)
    (h : deleteClusterIfEmpty s ident = .ok (s₂, r)) :
    s₂.missing_tables = s.missing_tables ∧
      s₂.orphaned_tables = s.orphaned_tables := by
  unfold deleteClusterIfEmpty at h
  rcases h1 : findClusterId s ident with e1 | cid
  · rw [h1] at h
    cases h
  · rw [h1] at h
    dsimp only at h
    rcases h2 : findCluster? s.clusters cid with _ | c
    · rw [h2] at h
      cases h
    · rw [h2] at h
      dsimp only at h
      split at h
      · cases h
      · split at h
        · cases h
        · split at h
          · cases h
            exact ⟨rfl, rfl⟩
          · cases h

theorem emptyTrash_mo (s : ClusterState) (s₂ : ClusterState)
    (r : EmptyTrashResult) (h : emptyTrash s = .ok (s₂, r)) :
    s₂.missing_tables = s.missing_tables ∧
      s₂.orphaned_tables = s.orphaned_tables := by
  unfold emptyTrash at h
  dsimp only at h
  rcases h1 : findCluster? s.clusters "trash" with _ | ctr
  · rw [h1] at h
    dsimp only at h
    cases h
    exact ⟨rfl, rfl⟩
  · rw [h1] at h
    dsimp only at h
    rcases h2 : emptyTrashLoop ctr.group_ids s.groups s.group_order []
        with ⟨e2, gs1, go1, a⟩ | ⟨gs1, go1, procs⟩
    · rw [h2] at h
      dsimp only at h
      cases h
    · rw [h2] at h
      dsimp only at h
      cases h
      exact ⟨rfl, rfl⟩

theorem removeFromTrashGroup_mo (base : ClusterState) (tgid p : String)
    (s₂ : ClusterState) (h : removeFromTrashGroup base tgid p = .ok s₂) :
    s₂.missing_tables = base.missing_tables ∧
      s₂.orphaned_tables = base.orphaned_tables := by
  unfold removeFromTrashGroup at h
  dsimp only at h
  split at h
  · rcases hf : findCluster? base.clusters "trash" with _ | ctr
    · rw [hf] at h
      cases h
    · rw [hf] at h
      dsimp only at h
      split at h
      · split at h
        · cases h
          exact ⟨rfl, rfl⟩
        · cases h
      · cases h
  · cases h
    exact ⟨rfl, rfl⟩

/-- `delete_procedure` purges every name that would be both missing and
orphaned, so its result is disjoint even without a precondition. -/
theorem deleteProcedure_disjoint (s : ClusterState) (p : String)
    (s₂ : ClusterState) (r : DeleteProcResult)
    (h : deleteProcedure s p = .ok (s₂, r)) : disjointMO s₂ := by
  unfold deleteProcedure at h
  rcases h1 : findGroupByProc s.groups p with _ | g
  · rw [h1] at h
    cases h
  · rw [h1] at h
    dsimp only at h
    split at h
    · cases h
    · split at h
      · rename_i es heq
        cases h
      · rename_i gs2 go2 cs2 emp heq
        split at h
        · cases h
          intro x hx hox
          rw [rebuildIndexes_missing] at hx
          rw [rebuildIndexes_orphaned] at hox
          dsimp only at hx hox
          exact purgeBoth_disjoint s.missing_tables s.missing_tables _
            (fun y hym _ => hym) x hx hox
        · cases h

theorem deleteTable_disjoint (s : ClusterState) (t : String)
    (s₂ : ClusterState) (r : DeleteTableResult) (hdis : disjointMO s)
    (h : deleteTable s t = .ok (s₂, r)) : disjointMO s₂ := by
  unfold deleteTable at h
  split at h
  · cases h
  · dsimp only at h
    split at h
    · cases h
    · cases h
      intro x hx hox
      rw [rebuildIndexes_missing] at hx
      rw [rebuildIndexes_orphaned] at hox
      dsimp only at hx hox
      have hx1 := mem_of_ite_filter _ _ x hx
      have hox1 := mem_of_ite_filter _ _ x hox
      have hox2 := List.mem_filter.1 hox1
      rcases mem_of_ite_insert _ _ x hx1 with rfl | hxm
      · exact absurd rfl (of_decide_eq_true hox2.2)
      · exact hdis x hxm hox2.1

theorem restoreTable_disjoint (s : ClusterState) (i : Int)
    (s₂ : ClusterState) (r : RestoreTableResult) (hdis : disjointMO s)
    (h : restoreTable s i = .ok (s₂, r)) : disjointMO s₂ := by
  unfold restoreTable at h
  split at h
  · cases h
  · dsimp only at h
    rcases h1 : s.trash[i.toNat]? with _ | item
    · rw [h1] at h
      cases h
    · rw [h1] at h
      dsimp only at h
      rcases h2 : item.data with d | d
    
      · rw [h2] at h
        cases h
      · rw [h2] at h
        dsimp only at h
        cases h
        intro x hx hox
        rw [rebuildIndexes_missing] at hx
        rw [rebuildIndexes_orphaned] at hox
        dsimp only at hx hox
        have hx1 := List.mem_filter.1 hx
        rcases mem_of_ite_insert _ _ x hox with rfl | hxo
        · exact absurd rfl (of_decide_eq_true hx1.2)
        · exact hdis x hx1.1 hxo

theorem restoreProcedure_disjoint (s : ClusterState) (p tcid : String)
    (forceNew : Bool) (s₂ : ClusterState) (r : RestoreProcResult)
    (hdis : disjointMO s)
    (h : restoreProcedure s p tcid forceNew = .ok (s₂, r)) : disjointMO s₂ := by
  unfold restoreProcedure at h
  rcases h1 : findGroupByProc s.groups p with _ | tg
  · rw [h1] at h
    cases h
  · rw [h1] at h
    dsimp only at h
    split at h
    · cases h
    · split at h
      · cases h
      · split at h
        · cases h
        · split at h
          · -- join an exact-match group
            split at h
            · cases h
            · rename_i s2 heq2
              cases h
              obtain ⟨hm, ho⟩ := removeFromTrashGroup_mo _ _ _ _ heq2
              intro x hx hox
              rw [rebuildIndexes_missing] at hx
              rw [rebuildIndexes_orphaned] at hox
              dsimp only at hx hox
              rw [hm] at hx
              dsimp only at hx
              rw [foldl_insert_mem_id] at hx
              have hxo := unorphan_fold_subset _ _ _ x hox
              rw [ho] at hxo
              dsimp only at hxo
              exact hdis x hx hxo
          · -- create a new singleton group
            split at h
            · cases h
            · rename_i s2 heq2
              cases h
              obtain ⟨hm, ho⟩ := removeFromTrashGroup_mo _ _ _ _ heq2
              intro x hx hox
              rw [rebuildIndexes_missing] at hx
              rw [rebuildIndexes_orphaned] at hox
              dsimp only at hx hox
              rw [hm] at hx
              dsimp only at hx
              rw [foldl_insert_mem_id] at hx
              have hxo := unorphan_fold_subset _ _ _ x hox
              rw [ho] at hxo
              dsimp only at hxo
              exact hdis x hx hxo

/-- **C7.**  On any state whose `missing_tables` and `orphaned_tables` are
disjoint, every mutation operation (`rename_cluster`, `rename_group`,
`move_group`, `move_procedure`, `delete_procedure`, `delete_table`,
`restore_procedure`, `restore_table`, `add_cluster`,
`delete_cluster_if_empty`, `empty_trash`) that succeeds yields a state in
which no table is simultaneously missing and orphaned; for
`delete_procedure` the purge loop removes any name that would be in both
sets, so its result is disjoint with no precondition at all. -/
theorem claim_C7_missing_orphaned_disjoint (s : ClusterState)
    (hdis : disjointMO s) :
    (∀ i nn s₂ r, renameCluster s i nn = .ok (s₂, r) → disjointMO s₂) ∧
    (∀ i nn s₂ r, renameGroup s i nn = .ok (s₂, r) → disjointMO s₂) ∧
    (∀ gi ti s₂ r, moveGroup s gi ti = .ok (s₂, r) → disjointMO s₂) ∧
    (∀ p ti s₂ r, moveProcedure s p ti = .ok (s₂, r) → disjointMO s₂) ∧
    (∀ p s₂ r, deleteProcedure s p = .ok (s₂, r) → disjointMO s₂) ∧
    (∀ t s₂ r, deleteTable s t = .ok (s₂, r) → disjointMO s₂) ∧
    (∀ p tc fn s₂ r, restoreProcedure s p tc fn = .ok (s₂, r) → disjointMO s₂) ∧
    (∀ i s₂ r, restoreTable s i = .ok (s₂, r) → disjointMO s₂) ∧
    (∀ cid dn s₂ r, addCluster s cid dn = .ok (s₂, r) → disjointMO s₂) ∧
    (∀ i s₂ r, deleteClusterIfEmpty s i = .ok (s₂, r) → disjointMO s₂) ∧
    (∀ s₂ r, emptyTrash s = .ok (s₂, r) → disjointMO s₂) := by
  have pres : ∀ s₂ : ClusterState,
      s₂.missing_tables = s.missing_tables →
      s₂.orphaned_tables = s.orphaned_tables → disjointMO s₂ := by
    intro s₂ hm ho x hx
    rw [hm] at hx
    rw [ho]
    exact hdis x hx
  refine ⟨?_, ?_, ?_, ?_, ?_, ?_, ?_, ?_, ?_, ?_, ?_⟩
  · intro i nn s₂ r h
    obtain ⟨hm, ho⟩ := renameCluster_mo s i nn s₂ r h
    exact pres s₂ hm ho
  · intro i nn s₂ r h
    obtain ⟨hm, ho⟩ := renameGroup_mo s i nn s₂ r h
    exact pres s₂ hm ho
  · intro gi ti s₂ r h
    obtain ⟨hm, ho⟩ := moveGroup_mo s gi ti s₂ r h
    exact pres s₂ hm ho
  · intro p ti s₂ r h
    obtain ⟨hm, ho⟩ := moveProcedure_mo s p ti s₂ r h
    exact pres s₂ hm ho
  · intro p s₂ r h
    exact deleteProcedure_disjoint s p s₂ r h
  · intro t s₂ r h
    exact deleteTable_disjoint s t s₂ r hdis h
  · intro p tc fn s₂ r h
    exact restoreProcedure_disjoint s p tc fn s₂ r hdis h
  · intro i s₂ r h
    exact restoreTable_disjoint s i s₂ r hdis h
  · intro cid dn s₂ r h
    obtain ⟨hm, ho⟩ := addCluster_mo s cid dn s₂ r h
    exact pres s₂ hm ho
  · intro i s₂ r h
    obtain ⟨hm, ho⟩ := deleteClusterIfEmpty_mo s i s₂ r h
    exact pres s₂ hm ho
  · intro s₂ r h
    obtain ⟨hm, ho⟩ := emptyTrash_mo s s₂ r h
    exact pres s₂ hm ho

/-- Witness for C7: the example state has disjoint missing/orphaned sets,
and every operation keeps them disjoint there. -/
theorem claim_C7_witness :
    disjointMO exampleState ∧
    ((∀ i nn s₂ r, renameCluster exampleState i nn = .ok (s₂, r) →
        disjointMO s₂) ∧
      (∀ i nn s₂ r, renameGroup exampleState i nn = .ok (s₂, r) →
        disjointMO s₂) ∧
      (∀ gi ti s₂ r, moveGroup exampleState gi ti = .ok (s₂, r) →
        disjointMO s₂) ∧
      (∀ p ti s₂ r, moveProcedure exampleState p ti = .ok (s₂, r) →
        disjointMO s₂) ∧
      (∀ p s₂ r, deleteProcedure exampleState p = .ok (s₂, r) →
        disjointMO s₂) ∧
      (∀ t s₂ r, deleteTable exampleState t = .ok (s₂, r) →
        disjointMO s₂) ∧
      (∀ p tc fn s₂ r, restoreProcedure exampleState p tc fn = .ok (s₂, r) →
        disjointMO s₂) ∧
      (∀ i s₂ r, restoreTable exampleState i = .ok (s₂, r) →
        disjointMO s₂) ∧
      (∀ cid dn s₂ r, addCluster exampleState cid dn = .ok (s₂, r) →
        disjointMO s₂) ∧
      (∀ i s₂ r, deleteClusterIfEmpty exampleState i = .ok (s₂, r) →
        disjointMO s₂) ∧
      (∀ s₂ r, emptyTrash exampleState = .ok (s₂, r) → disjointMO s₂)) :=
  ⟨by unfold disjointMO; decide,
   claim_C7_missing_orphaned_disjoint exampleState
     (by unfold disjointMO; decide)⟩

/-! ### Claim C4: `delete_table` and the flag sets. -/

/-- C4 counterexample state: table "T" is referenced by singleton groups
living in two different clusters, so the rebuild that ends `delete_table`
immediately re-classifies "T" as global (spanning two clusters at the
default threshold 2). -/
def cexC4 : ClusterState :=
  { clusters := [
      { cluster_id := "c1", group_ids := ["g1"] },
      { cluster_id := "c2", group_ids := ["g2"] },
      { cluster_id := "trash", group_ids := [] }],
    groups := [
      { group_id := "g1", cluster_id := "c1", procedures := ["p1"],
        tables := ["T"], is_singleton := true, display_name := some "p1" },
      { group_id := "g2", cluster_id := "c2", procedures := ["p2"],
        tables := ["T"], is_singleton := true, display_name := some "p2" }],
    cluster_order := ["c1", "c2", "trash"],
    group_order := ["g1", "g2"],
    global_tables := [],
    missing_tables := [],
    orphaned_tables := [],
    similarity_edges := [],
    parameters := {} }

/-- The `became_missing` flag of a `delete_table` result, when it succeeded. -/
def resBecameMissing (r : OpResult DeleteTableResult) : Option Bool :=
  match r with
  | .ok (_, v) => some v.became_missing
  | .error _ => none

/-- C4 counterexample: deleting "T" (not missing, referenced by the active
groups g1 and g2) succeeds with `became_missing = true`, and "T" is indeed
no longer orphaned — but it IS in `global_tables` after the operation's
final rebuild, which recomputes globality from the still-referencing
groups; the claim says it no longer is. -/
theorem claim_C4_counterexample :
    "T" ∉ cexC4.missing_tables ∧
    resOk (deleteTable cexC4 "T") = true ∧
    resBecameMissing (deleteTable cexC4 "T") = some true ∧
    "T" ∈ (resState (deleteTable cexC4 "T")).global_tables ∧
    "T" ∉ (resState (deleteTable cexC4 "T")).orphaned_tables := by
  with_unfolding_all decide

/-- **C4 (amended).**  `delete_table(name)` errors when `name` is in
`missing_tables`; otherwise, when at least one active (non-trash) group
still references `name`, it succeeds, the result has
`became_missing = true`, and after the final rebuild `name` is not in
`orphaned_tables` — but it is in `global_tables` exactly when its
referencing groups still span at least `min_global_clusters` distinct
clusters (the rebuild recomputes globality from the groups, which keep
their references). -/
theorem claim_C4_delete_table_flags (s : ClusterState) (t : String) :
    (t ∈ s.missing_tables → deleteTable s t = .error (.valueError t, s)) ∧
    (t ∉ s.missing_tables →
      (∃ g ∈ s.groups, t ∈ g.tables ∧ g.cluster_id ≠ "trash") →
      ∃ s₂ r, deleteTable s t = .ok (s₂, r) ∧ r.became_missing = true ∧
        t ∉ s₂.orphaned_tables ∧
        (t ∈ s₂.global_tables ↔
          effMinGlobalClusters s.parameters ≤ clusterSpan s.groups t)) := by
  constructor
  · intro hmem
    unfold deleteTable
    rw [if_pos hmem]
  · intro hnm href
    have hrefs : (s.groups.filter
        (fun g => decide (t ∈ g.tables ∧ g.cluster_id ≠ "trash"))).map
          (·.group_id) ≠ [] := by
      obtain ⟨g, hgmem, hgt, hgc⟩ := href
      intro hnil
      have hf : g ∈ s.groups.filter
          (fun g => decide (t ∈ g.tables ∧ g.cluster_id ≠ "trash")) :=
        List.mem_filter.2 ⟨hgmem, by simp [hgt, hgc]⟩
      have := List.mem_map_of_mem (·.group_id) hf
      rw [hnil] at this
      cases this
    have hie : ((s.groups.filter
        (fun g => decide (t ∈ g.tables ∧ g.cluster_id ≠ "trash"))).map
          (·.group_id)).isEmpty = false := by
      rcases hr : (s.groups.filter
          (fun g => decide (t ∈ g.tables ∧ g.cluster_id ≠ "trash"))).map
            (·.group_id) with _ | ⟨a, l⟩
      · exact absurd hr hrefs
      · rw [hr]
        rfl
    unfold deleteTable
    rw [if_neg hnm]
    dsimp only
    rw [hie, Bool.and_false]
    rw [if_neg (fun hx : false = true => Bool.false_ne_true hx)]
    refine ⟨_, _, rfl, ?_, ?_, ?_⟩
    · rfl
    · intro hox
      rw [rebuildIndexes_orphaned] at hox
      dsimp only at hox
      have h1 := mem_of_ite_filter _ _ t hox
      exact absurd rfl (of_decide_eq_true (List.mem_filter.1 h1).2)
    · show t ∈ computeGlobalTables s.groups (effMinGlobalClusters s.parameters)
        ↔ effMinGlobalClusters s.parameters ≤ clusterSpan s.groups t
      constructor
      · intro h
        exact of_decide_eq_true (List.mem_filter.1 h).2
      · intro hm
        refine List.mem_filter.2 ⟨?_, decide_eq_true hm⟩
        obtain ⟨g, hgmem, hgt, _⟩ := href
        exact mem_dedupF.2 (List.mem_flatMap.2 ⟨g, hgmem, hgt⟩)

end SqlCatalog
